import Mathlib

/-!
Shallow embedding of the core of the rag-sample repository (a local RAG service
with a ChromaDB-backed vector store), together with theorems settling the
claims of its specification.

Conventions of the embedding:
* Python floats are modelled as rationals; machine-level rounding is irrelevant
  to every claim treated here (the claims are order/algebraic statements).
* Python dicts holding document metadata are modelled as insertion-ordered
  association lists with last-write-wins update, matching dict semantics.
* Python exceptions are modelled with Except; methods that mutate the object
  return the post state paired with the outcome.
* Python list.sort(key=score, reverse=True) is a stable descending sort; it is
  modelled with List.insertionSort, which is stable and has the same
  input/output behaviour as any stable sort for the same preorder.
-/

namespace RagSample

/-! ### Metadata maps (Python dict of scalars) -/

/-- A scalar metadata value as stored by the vector store (str / int / bool). -/
inductive MValue where
  | s (v : String)
  | i (v : Int)
  | b (v : Bool)
deriving DecidableEq, Repr

/-- An insertion-ordered map, modelling a Python dict of metadata. -/
abbrev Metadata := List (String × MValue)

/-- Dict assignment d[k] = v: overwrite in place if the key exists, else append. -/
def metaSet (md : Metadata) (k : String) (v : MValue) : Metadata :=
  if md.any (fun p => p.1 = k) then
    md.map (fun p => if p.1 = k then (k, v) else p)
  else
    md ++ [(k, v)]

/-- Dict lookup d.get(k). -/
def metaGet (md : Metadata) (k : String) : Option MValue :=
  (md.find? (fun p => p.1 = k)).map Prod.snd

/-- Dict lookup d.get(k, default) for string-valued entries. -/
def metaGetS (md : Metadata) (k : String) (dflt : String) : String :=
  match metaGet md k with
  | some (MValue.s v) => v
  | _ => dflt

/-- Dict lookup d.get(k, default) for integer-valued entries. -/
def metaGetI (md : Metadata) (k : String) (dflt : Int) : Int :=
  match metaGet md k with
  | some (MValue.i v) => v
  | _ => dflt

/-! ### Data model (src/src/models/document.py) -/

/-- Chunk: a persisted unit of retrieval for text. -/
structure Chunk where
  content : String
  chunk_id : String
  document_id : String
  chunk_index : Int
  start_char : Int
  end_char : Int
  metadata : Metadata
deriving DecidableEq, Repr

/-- Chunk construction including Chunk.post-init, which injects the
chunk-specific keys chunk_id, document_id, chunk_index, start_char, end_char
and size into the metadata dict. -/
def mkChunk (content chunk_id document_id : String)
    (chunk_index start_char end_char : Int) (metadata : Metadata) : Chunk :=
  let md := metaSet (metaSet (metaSet (metaSet (metaSet (metaSet metadata
      "chunk_id" (MValue.s chunk_id))
      "document_id" (MValue.s document_id))
      "chunk_index" (MValue.i chunk_index))
      "start_char" (MValue.i start_char))
      "end_char" (MValue.i end_char))
      "size" (MValue.i content.length)
  ⟨content, chunk_id, document_id, chunk_index, start_char, end_char, md⟩

/-- SearchResult: one ranked retrieval hit. -/
structure SearchResult where
  chunk : Chunk
  score : ℚ
  document_name : String
  document_source : String
  rank : Nat
  metadata : Metadata
  result_type : String
  image_path : Option String
  caption : Option String
deriving DecidableEq, Repr

/-- SearchResult construction including its post-init validation, which raises
unless the score lies in the closed interval from 0 to 1. -/
def mkSearchResult (chunk : Chunk) (score : ℚ) (document_name document_source : String)
    (rank : Nat) (metadata : Metadata) (result_type : String)
    (image_path : Option String) (caption : Option String) : Except String SearchResult :=
  if 0 ≤ score ∧ score ≤ 1 then
    .ok ⟨chunk, score, document_name, document_source, rank, metadata, result_type, image_path, caption⟩
  else
    .error "Score must be between 0 and 1"

/-! ### Collections (models of the external ChromaDB client objects) -/

/-- One stored record of a collection: id, document text, metadata, vector. -/
structure CEntry where
  id : String
  document : String
  metadata : Metadata
  embedding : List ℚ
deriving DecidableEq, Repr

/-- A named vector index of the backing database (external dependency). -/
structure Collection where
  entries : List CEntry
deriving DecidableEq, Repr

/-- Squared Euclidean distance between two vectors, the distance reported by
the backing database for its default l2 space. -/
def sqDist (u v : List ℚ) : ℚ :=
  ((u.zip v).map (fun p => (p.1 - p.2) * (p.1 - p.2))).sum

/-- One row of a query response: id, document, metadata and distance. -/
structure QueryRow where
  id : String
  document : String
  metadata : Metadata
  distance : ℚ
deriving DecidableEq, Repr

/-- Ordering of query rows by ascending distance. -/
def distLe (a b : QueryRow) : Prop := a.distance ≤ b.distance

instance : DecidableRel distLe := fun a b => inferInstanceAs (Decidable (a.distance ≤ b.distance))

instance : IsTotal QueryRow distLe := ⟨fun a b => le_total a.distance b.distance⟩

instance : IsTrans QueryRow distLe := ⟨fun _ _ _ h1 h2 => le_trans h1 h2⟩

/-- Collection.query of the backing database (external dependency): the n
nearest entries by squared L2 distance, nearest first, ties in insertion
order. -/
def Collection.query (col : Collection) (qe : List ℚ) (n : Nat) : List QueryRow :=
  (List.insertionSort distLe
    (col.entries.map (fun e => QueryRow.mk e.id e.document e.metadata (sqDist qe e.embedding)))).take n

/-- Collection add/upsert of the backing database (external dependency):
insert a record or overwrite the record with the same id. -/
def Collection.upsert (col : Collection) (e : CEntry) : Collection :=
  if col.entries.any (fun x => x.id = e.id) then
    ⟨col.entries.map (fun x => if x.id = e.id then e else x)⟩
  else
    ⟨col.entries ++ [e]⟩

/-- Batch form of upsert, applied left to right. -/
def Collection.addBatch (col : Collection) (es : List CEntry) : Collection :=
  es.foldl Collection.upsert col

/-- Lookup of the stored record with a given id. -/
def findEntry (col : Collection) (id : String) : Option CEntry :=
  col.entries.find? (fun e => e.id = id)

/-! ### VectorStore (src/src/rag/vector_store.py) -/

/-- The slice of the application Config read by the store operations modelled
here (src/src/utils/config.py). -/
structure Config where
  multimodal_search_text_weight : ℚ
  multimodal_search_image_weight : ℚ
deriving DecidableEq, Repr

/-- VectorStore state: config, main collection name, the client (a map from
collection names to collections) and the main collection handle. Both handles
are None before initialization and again after close. -/
structure VectorStore where
  config : Config
  collection_name : String
  client : Option (List (String × Collection))
  collection : Option Collection
deriving DecidableEq, Repr

/-- client.get-or-create-collection: the named collection, or a fresh empty
one if absent. -/
def getOrCreate (client : List (String × Collection)) (name : String) : Collection :=
  match client.find? (fun p => p.1 = name) with
  | some p => p.2
  | none => ⟨[]⟩

/-- Builds a Chunk from one text query row, as VectorStore.search does. -/
def chunkOfRow (row : QueryRow) : Chunk :=
  mkChunk row.document row.id (metaGetS row.metadata "document_id" "")
    (metaGetI row.metadata "chunk_index" 0) (metaGetI row.metadata "start_char" 0)
    (metaGetI row.metadata "end_char" 0) row.metadata

/-- Builds one text SearchResult from a query row at a given 1-based rank;
the distance is converted to a score by 1 / (1 + distance) and the score
bound is checked at construction. The SearchResult metadata aliases the
chunk metadata, as in the source. -/
def rowToResult (rank : Nat) (row : QueryRow) : Except String SearchResult :=
  let chunk := chunkOfRow row
  mkSearchResult chunk (1 / (1 + row.distance))
    (metaGetS row.metadata "document_name" "Unknown")
    (metaGetS row.metadata "source" "Unknown")
    rank chunk.metadata "text" none none

/-- Sequencing of a fallible construction over a list: the results in order,
or the first error raised. This is the loop of the search methods, which
build one SearchHit per row and stop at the first raised exception. -/
def mapExcept (f : α → Except String β) : List α → Except String (List β)
  | [] => .ok []
  | a :: t => do
    let b ← f a
    let rest ← mapExcept f t
    pure (b :: rest)

/-- VectorStore.search: similarity search in the main collection. Raises when
the collection handle is None. -/
def VectorStore.search (s : VectorStore) (query_embedding : List ℚ) (n_results : Nat) :
    Except String (List SearchResult) :=
  match s.collection with
  | none => .error "collection not initialized"
  | some col =>
    mapExcept (fun p => rowToResult p.1 p.2) ((col.query query_embedding n_results).enumFrom 1)

/-- Builds one image SearchResult from a query row at a given 1-based rank:
a synthetic Chunk whose content is the caption, result type image. -/
def imgRowToResult (rank : Nat) (row : QueryRow) : Except String SearchResult :=
  let caption := row.document
  let chunk := mkChunk caption row.id row.id 0 0 (caption.length : Int) row.metadata
  mkSearchResult chunk (1 / (1 + row.distance))
    (metaGetS row.metadata "file_name" "Unknown")
    (metaGetS row.metadata "file_path" "Unknown")
    rank chunk.metadata "image"
    (some (metaGetS row.metadata "file_path" "")) (some caption)

/-- VectorStore.search-images: similarity search in the images collection,
obtained from the client by get-or-create. Raises when the client is None. -/
def VectorStore.search_images (s : VectorStore) (query_embedding : List ℚ) (top_k : Nat) :
    Except String (List SearchResult) :=
  match s.client with
  | none => .error "client not initialized"
  | some cl =>
    mapExcept (fun p => imgRowToResult p.1 p.2)
      (((getOrCreate cl "images").query query_embedding top_k).enumFrom 1)

/-- Descending-score ordering of search results. -/
def scoreGe (a b : SearchResult) : Prop := b.score ≤ a.score

instance : DecidableRel scoreGe := fun a b => inferInstanceAs (Decidable (b.score ≤ a.score))

instance : IsTotal SearchResult scoreGe := ⟨fun a b => le_total b.score a.score⟩

instance : IsTrans SearchResult scoreGe := ⟨fun _ _ _ h1 h2 => le_trans h2 h1⟩

/-- In-place weighting and annotation applied by search-multimodal to each
single-modality hit: score multiplied by the modality weight and a
search-type marker written into the metadata. -/
def weightTag (w : ℚ) (tag : String) (r : SearchResult) : SearchResult :=
  { r with score := r.score * w, metadata := metaSet r.metadata "search_type" (MValue.s tag) }

/-- Rank reassignment of one positioned element, from enumerate starting at 1. -/
def setRank (p : Nat × SearchResult) : SearchResult := { p.2 with rank := p.1 }

/-- The merge step of VectorStore.search-multimodal, taking the outcomes of
the two single-modality searches: a failed search is logged and replaced by
the empty list, the hits are weighted and annotated per modality, the union
is sorted by adjusted score descending (stable), truncated to the top k, and
the ranks are reassigned 1-based. -/
def mergeMultimodal (textRes imageRes : Except String (List SearchResult))
    (tw iw : ℚ) (k : Nat) : List SearchResult :=
  let text_results := (textRes.toOption.getD []).map (weightTag tw "text")
  let image_results := (imageRes.toOption.getD []).map (weightTag iw "image")
  let sorted := List.insertionSort scoreGe (text_results ++ image_results)
  ((sorted.take k).enumFrom 1).map setRank

/-- VectorStore.search-multimodal: weights default to the config values when
not supplied; each single-modality failure is caught and logged, so the
function itself always returns a result list. -/
def VectorStore.search_multimodal (s : VectorStore) (query_embedding : List ℚ) (top_k : Nat)
    (text_weight image_weight : Option ℚ) : Except String (List SearchResult) :=
  let tw := text_weight.getD s.config.multimodal_search_text_weight
  let iw := image_weight.getD s.config.multimodal_search_image_weight
  .ok (mergeMultimodal (s.search query_embedding top_k) (s.search_images query_embedding top_k)
        tw iw top_k)

/-- The record stored for a chunk: id, content, metadata and vector. -/
def chunkToEntry (c : Chunk) (emb : List ℚ) : CEntry :=
  ⟨c.chunk_id, c.content, c.metadata, emb⟩

/-- VectorStore.add-documents: raises when the collection handle is None or
when the chunk and embedding lists have different lengths; an empty batch is
a no-op; otherwise the records are added to the collection. The pair returned
is the post state and the outcome. -/
def VectorStore.add_documents (s : VectorStore) (chunks : List Chunk)
    (embeddings : List (List ℚ)) : VectorStore × Except String Unit :=
  match s.collection with
  | none => (s, .error "collection not initialized")
  | some col =>
    if chunks.length ≠ embeddings.length then
      (s, .error "chunk count and embedding count do not match")
    else if chunks.isEmpty then (s, .ok ())
    else
      let col2 := col.addBatch ((chunks.zip embeddings).map (fun p => chunkToEntry p.1 p.2))
      ({ s with collection := some col2 }, .ok ())

/-- VectorStore.get-document-count. -/
def VectorStore.get_document_count (s : VectorStore) : Except String Nat :=
  match s.collection with
  | none => .error "collection not initialized"
  | some col => .ok col.entries.length

/-- Conjunction-of-equalities metadata filter of delete. -/
def whereMatches (md : Metadata) (f : Metadata) : Bool :=
  f.all (fun p => metaGet md p.1 = some p.2)

/-- VectorStore.delete: removes by document id, by chunk ids, or by metadata
filter, with Python truthiness on each argument; raises when no condition is
given or the collection handle is None. Returns the number removed. -/
def VectorStore.delete (s : VectorStore) (document_id : Option String)
    (chunk_ids : Option (List String)) (whereF : Option Metadata) :
    VectorStore × Except String Nat :=
  match s.collection with
  | none => (s, .error "collection not initialized")
  | some col =>
    if (document_id.getD "") ≠ "" then
      let did := document_id.getD ""
      let col2 : Collection :=
        ⟨col.entries.filter (fun e => metaGetS e.metadata "document_id" "" ≠ did)⟩
      ({ s with collection := some col2 }, .ok (col.entries.length - col2.entries.length))
    else if (chunk_ids.getD []) ≠ [] then
      let ids := chunk_ids.getD []
      let col2 : Collection := ⟨col.entries.filter (fun e => ¬ ids.contains e.id)⟩
      ({ s with collection := some col2 }, .ok (col.entries.length - col2.entries.length))
    else if (whereF.getD []) ≠ [] then
      let f := whereF.getD []
      let col2 : Collection := ⟨col.entries.filter (fun e => ¬ whereMatches e.metadata f)⟩
      ({ s with collection := some col2 }, .ok (col.entries.length - col2.entries.length))
    else
      (s, .error "no delete condition given")

/-- One aggregated row of the document listing. -/
structure DocSummary where
  document_id : String
  document_name : String
  source : String
  doc_type : String
  chunk_count : Nat
  total_size : Int
deriving DecidableEq, Repr

/-- One grouping step of list-documents: a chunk record is folded into the
per-document map, keyed by the document-id metadata, reading the keys
document-name, source and doc-type with Unknown as the fallback. -/
def addToMap (m : List DocSummary) (md : Metadata) : List DocSummary :=
  let did := metaGetS md "document_id" "unknown"
  if m.any (fun d => d.document_id = did) then
    m.map (fun d =>
      if d.document_id = did then
        { d with chunk_count := d.chunk_count + 1,
                 total_size := d.total_size + metaGetI md "size" 0 }
      else d)
  else
    m ++ [⟨did, metaGetS md "document_name" "Unknown", metaGetS md "source" "Unknown",
           metaGetS md "doc_type" "Unknown", 1, metaGetI md "size" 0⟩]

/-- VectorStore.list-documents: one aggregated entry per distinct document id,
in first-appearance order. -/
def VectorStore.list_documents (s : VectorStore) (limit : Option Nat) :
    Except String (List DocSummary) :=
  match s.collection with
  | none => .error "collection not initialized"
  | some col =>
    if col.entries.length = 0 then .ok []
    else
      let rows := match limit with
        | none => col.entries
        | some n => col.entries.take n
      .ok ((rows.map CEntry.metadata).foldl addToMap [])

/-- VectorStore.clear: drops and recreates the main collection; raises when
the collection handle is None; a no-op when the collection is already empty. -/
def VectorStore.clear (s : VectorStore) : VectorStore × Except String Unit :=
  match s.collection with
  | none => (s, .error "collection not initialized")
  | some col =>
    if col.entries.length = 0 then (s, .ok ())
    else
      match s.client with
      | none => (s, .error "client not initialized")
      | some cl =>
        let cl2 := cl.map (fun p =>
          if p.1 = s.collection_name then (p.1, (⟨[]⟩ : Collection)) else p)
        ({ s with collection := some ⟨[]⟩, client := some cl2 }, .ok ())

/-- VectorStore.close: releases both handles; no check, hence idempotent. -/
def VectorStore.close (s : VectorStore) : VectorStore :=
  { s with collection := none, client := none }

/-! ### DocumentProcessor (src/src/rag/document_processor.py) -/

/-- Document: a source artifact before splitting. The timestamp is kept as
its ISO string. -/
structure Document where
  file_path : String
  name : String
  content : String
  doc_type : String
  source : String
  timestamp : String
  metadata : Metadata
deriving Repr

/-- First index at or after the cursor where the needle occurs, scanning the
character list; models str.find(sub, start). -/
def findSubAux (needle : List Char) : List Char → Nat → Option Nat
  | [], i => if needle.isPrefixOf ([] : List Char) then some i else none
  | l@(_ :: t), i => if needle.isPrefixOf l then some i else findSubAux needle t (i + 1)

/-- str.find(sub, start): first match position, or none for the sentinel -1. -/
def findFrom (hay needle : List Char) (start : Nat) : Option Nat :=
  (findSubAux needle (hay.drop start) 0).map (· + start)

/-- Zero-padding of an index to four digits, as in the chunk-id format. -/
def pad4 (n : Nat) : String :=
  let str := toString n
  String.mk (List.replicate (4 - str.length) '0') ++ str

/-- The chunk-id format of the generator: doc-id, the separator, the 4-digit
zero-padded index. -/
def chunkIdOf (document_id : String) (chunk_index : Nat) : String :=
  document_id ++ "_chunk_" ++ pad4 chunk_index

/-- The per-chunk metadata assembled by create-chunks: the document metadata
merged with the keys document-name, document-source, document-type and
timestamp (note the key names, which are the point of claim C6). -/
def chunkBaseMeta (doc : Document) : Metadata :=
  metaSet (metaSet (metaSet (metaSet doc.metadata
      "document_name" (MValue.s doc.name))
      "document_source" (MValue.s doc.source))
      "document_type" (MValue.s doc.doc_type))
      "timestamp" (MValue.s doc.timestamp)

/-- The loop body of create-chunks: for each split fragment, the offsets are
recovered by a first-match search from the running cursor (falling back to
the cursor on a miss) and a Chunk is built. -/
def createChunksGo (doc : Document) (document_id : String) :
    Nat → Nat → List String → List Chunk
  | _, _, [] => []
  | chunk_index, current_position, ct :: rest =>
    let start_char := (findFrom doc.content.data ct.data current_position).getD current_position
    let end_char := start_char + ct.length
    let chunk := mkChunk ct (chunkIdOf document_id chunk_index) document_id
      (chunk_index : Int) (start_char : Int) (end_char : Int) (chunkBaseMeta doc)
    chunk :: createChunksGo doc document_id (chunk_index + 1) end_char rest

/-- DocumentProcessor.create-chunks. The text splitting itself is done by the
external LangChain splitter, so the split fragments are taken as input; the
document id is taken as input in place of the hash generator. -/
def create_chunks (doc : Document) (text_chunks : List String) (document_id : String) :
    List Chunk :=
  createChunksGo doc document_id 0 0 text_chunks

/-! ### RAGEngine chat (src/src/rag/engine.py, src/src/models/document.py) -/

/-- The roles accepted by ChatMessage. -/
def validRoles : List String := ["user", "assistant", "system"]

/-- A role-tagged chat message (timestamp and metadata omitted; no claim
reads them). -/
structure ChatMessage where
  role : String
  content : String
deriving DecidableEq, Repr

/-- ChatMessage construction including its post-init role validation. -/
def mkChatMessage (role content : String) : Except String ChatMessage :=
  if role ∈ validRoles then .ok ⟨role, content⟩ else .error "invalid role"

/-- ChatHistory: an ordered message list with an optional cap. -/
structure ChatHistory where
  messages : List ChatMessage
  max_messages : Option Nat
deriving DecidableEq, Repr

/-- ChatHistory.add-message: append, then, when a nonzero cap is set and
exceeded (Python truthiness on the cap), keep only the last cap messages. -/
def ChatHistory.add_message (h : ChatHistory) (role content : String) :
    Except String ChatHistory := do
  let m ← mkChatMessage role content
  let msgs := h.messages ++ [m]
  match h.max_messages with
  | some cap =>
    if cap ≠ 0 ∧ msgs.length > cap then
      pure { h with messages := msgs.drop (msgs.length - cap) }
    else
      pure { h with messages := msgs }
  | none => pure { h with messages := msgs }

/-- The list kept after one append under an optional cap; the closed form of
the eviction step of add-message, used to state its behaviour. -/
def evict (max : Option Nat) (msgs : List ChatMessage) : List ChatMessage :=
  match max with
  | some cap => if cap ≠ 0 ∧ msgs.length > cap then msgs.drop (msgs.length - cap) else msgs
  | none => msgs

/-- The answer record returned by RAGEngine.chat. -/
structure ChatAnswer where
  answer : String
  context_count : Nat
  history_length : Nat
deriving DecidableEq, Repr

/-- RAGEngine.chat: the user turn is appended first; then retrieval runs,
then the LLM is invoked (both external calls are passed in as outcomes);
only on success is the assistant turn appended. The pair returned is the
post chat log and the outcome. Prompt assembly is pure string building and
is not modelled; no claim reads the prompt. -/
def engineChat (hist : ChatHistory) (message : String)
    (retrieval : Except String (List SearchResult)) (llm : Except String String) :
    ChatHistory × Except String ChatAnswer :=
  match hist.add_message "user" message with
  | .error e => (hist, .error e)
  | .ok h1 =>
    match retrieval with
    | .error e => (h1, .error ("document retrieval failed: " ++ e))
    | .ok results =>
      match llm with
      | .error e => (h1, .error ("chat answer generation failed: " ++ e))
      | .ok answer =>
        match h1.add_message "assistant" answer with
        | .error e => (h1, .error e)
        | .ok h2 => (h2, .ok ⟨answer, results.length, h2.messages.length⟩)

/-! ### Config attribute loading and the store factory
(src/src/utils/config.py, src/src/rag/vector_store/factory.py) -/

/-- The environment keys read by Config load-and-validate, in source order. -/
def configEnvKeys : List String :=
  ["OLLAMA_BASE_URL", "OLLAMA_LLM_MODEL", "OLLAMA_EMBEDDING_MODEL",
   "OLLAMA_MULTIMODAL_LLM_MODEL", "OLLAMA_VISION_MODEL", "CHROMA_PERSIST_DIRECTORY",
   "CHUNK_SIZE", "CHUNK_OVERLAP", "LOG_LEVEL", "IMAGE_CAPTION_AUTO_GENERATE",
   "MAX_IMAGE_SIZE_MB", "IMAGE_RESIZE_ENABLED", "IMAGE_RESIZE_MAX_WIDTH",
   "IMAGE_RESIZE_MAX_HEIGHT", "MULTIMODAL_SEARCH_TEXT_WEIGHT",
   "MULTIMODAL_SEARCH_IMAGE_WEIGHT"]

/-- The attribute dictionary of a Config object after load-and-validate, for
a given environment: each attribute holds the environment value or the
default. Values are kept as raw strings; the int/float parsing and the
validation can raise ConfigError but neither adds nor removes an attribute,
and no claim reads a parsed value through this map. -/
def configAttrs (env : String → Option String) : List (String × String) :=
  [("ollama_base_url", (env "OLLAMA_BASE_URL").getD "http://localhost:11434"),
   ("ollama_llm_model", (env "OLLAMA_LLM_MODEL").getD "gpt-oss"),
   ("ollama_embedding_model", (env "OLLAMA_EMBEDDING_MODEL").getD "nomic-embed-text"),
   ("ollama_multimodal_llm_model", (env "OLLAMA_MULTIMODAL_LLM_MODEL").getD "gemma3"),
   ("ollama_vision_model", (env "OLLAMA_VISION_MODEL").getD "llava"),
   ("chroma_persist_directory", (env "CHROMA_PERSIST_DIRECTORY").getD "./chroma_db"),
   ("chunk_size", (env "CHUNK_SIZE").getD "1000"),
   ("chunk_overlap", (env "CHUNK_OVERLAP").getD "200"),
   ("log_level", (env "LOG_LEVEL").getD "INFO"),
   ("image_caption_auto_generate", (env "IMAGE_CAPTION_AUTO_GENERATE").getD "True"),
   ("max_image_size_mb", (env "MAX_IMAGE_SIZE_MB").getD "10"),
   ("image_resize_enabled", (env "IMAGE_RESIZE_ENABLED").getD "False"),
   ("image_resize_max_width", (env "IMAGE_RESIZE_MAX_WIDTH").getD "1024"),
   ("image_resize_max_height", (env "IMAGE_RESIZE_MAX_HEIGHT").getD "1024"),
   ("multimodal_search_text_weight", (env "MULTIMODAL_SEARCH_TEXT_WEIGHT").getD "0.5"),
   ("multimodal_search_image_weight", (env "MULTIMODAL_SEARCH_IMAGE_WEIGHT").getD "0.5")]

/-- Python attribute access on the attribute dictionary: None models an
AttributeError. -/
def getAttr (attrs : List (String × String)) (name : String) : Option String :=
  (attrs.find? (fun p => p.1 = name)).map Prod.snd

/-- Lower-casing of a string, character by character. -/
def strToLower (s : String) : String := String.mk (s.data.map Char.toLower)

/-- create-vector-store: reads the vector-db-type attribute of the config
object and selects the backend class by its lower-cased value; an absent
attribute is a Python AttributeError. The result names the backend selected. -/
def create_vector_store (attrs : List (String × String)) : Except String String :=
  match getAttr attrs "vector_db_type" with
  | none => .error "AttributeError: Config object has no attribute vector_db_type"
  | some v =>
    let t := strToLower v
    if t = "chroma" then .ok "chroma"
    else if t = "qdrant" then .ok "qdrant"
    else if t = "milvus" then .ok "milvus"
    else if t = "weaviate" then .ok "weaviate"
    else .error "unsupported vector db type"

/-! ### File dispatch and image ingestion
(src/src/services/file_utils.py, src/src/rag/image_processor.py,
src/src/services/document_service.py) -/

/-- The characters of a file name after the last slash; models Path.name. -/
def fileNameChars (p : String) : List Char :=
  p.data.foldl (fun acc c => if c = '/' then [] else acc ++ [c]) []

/-- The extension with its dot, lower-case-preserving; models Path.suffix:
the part of the name after the last dot, when a dot occurs past the first
character. -/
def pathSuffix (p : String) : String :=
  let name := fileNameChars p
  if (name.drop 1).contains '.' then
    String.mk ('.' :: name.foldl (fun acc c => if c = '.' then [] else acc ++ [c]) [])
  else ""

/-- The image extension set of the dispatch layer (file-utils). -/
def IMAGE_EXTENSIONS : List String :=
  [".jpg", ".jpeg", ".png", ".gif", ".bmp", ".webp", ".tiff", ".tif"]

/-- is-image-file: extension membership, case-insensitive. -/
def is_image_file (p : String) : Bool :=
  IMAGE_EXTENSIONS.contains (strToLower (pathSuffix p))

/-- The extension set accepted by the image processor; note the absence of
the tiff extensions. -/
def imageSupportedExts : List String := [".jpg", ".jpeg", ".png", ".gif", ".bmp", ".webp"]

/-- The Python exception classes raised along the ingestion path. -/
inductive PyErr where
  | fileNotFound (msg : String)
  | imageProcessor (msg : String)
  | unsupportedImageType (msg : String)
  | visionEmbedding (msg : String)
  | vectorStoreErr (msg : String)
deriving DecidableEq, Repr

/-- type(e).name of an exception. -/
def PyErr.className : PyErr → String
  | .fileNotFound _ => "FileNotFoundError"
  | .imageProcessor _ => "ImageProcessorError"
  | .unsupportedImageType _ => "UnsupportedImageTypeError"
  | .visionEmbedding _ => "VisionEmbeddingError"
  | .vectorStoreErr _ => "VectorStoreError"

/-- str(e) of an exception. -/
def PyErr.msgOf : PyErr → String
  | .fileNotFound m => m
  | .imageProcessor m => m
  | .unsupportedImageType m => m
  | .visionEmbedding m => m
  | .vectorStoreErr m => m

/-- The filesystem facts about one path that the ingestion path consults. -/
structure FileInfo where
  present : Bool
  isDir : Bool
  sizeMb : ℚ
deriving DecidableEq, Repr

/-- ImageProcessor.validate-image: existence, then not-a-directory, then
supported extension, then size bound, each check raising its own error. -/
def validate_image (maxMb : ℚ) (path : String) (fi : FileInfo) : Except PyErr Unit :=
  if fi.present = false then .error (.fileNotFound ("Image file not found: " ++ path))
  else if fi.isDir then .error (.imageProcessor ("Path is a directory, not a file: " ++ path))
  else if (imageSupportedExts.contains (strToLower (pathSuffix path))) = false then
    .error (.unsupportedImageType ("Unsupported image format: " ++ pathSuffix path))
  else if fi.sizeMb > maxMb then .error (.imageProcessor ("Image file too large: " ++ path))
  else .ok ()

/-- An in-memory image document, as built by load-image. -/
structure ImageDocument where
  id : String
  file_path : String
  file_name : String
  image_type : String
  caption : String
  tags : List String
deriving DecidableEq, Repr

/-- ImageProcessor.load-image: validates first, then resolves the caption
(manual caption wins by Python truthiness, else the vision model when
auto-captioning is on, else the fallback label) and builds the document.
The id generator hashes path and time externally, so the id is an input;
the vision model call is an input outcome. -/
def load_image (maxMb : ℚ) (autoCaption : Bool) (genCaption : Except PyErr String)
    (imageId : String) (path : String) (fi : FileInfo) (captionArg : Option String)
    (tags : List String) : Except PyErr ImageDocument := do
  let _ ← validate_image maxMb path fi
  let captionEff := captionArg.getD ""
  let caption ←
    if captionEff ≠ "" then pure captionEff
    else if autoCaption then genCaption
    else pure ("Image: " ++ String.mk (fileNameChars path))
  pure ⟨imageId, path, String.mk (fileNameChars path),
        strToLower ((pathSuffix path).drop 1), caption, tags⟩

/-- The metadata record stored for one image by add-images. -/
def imgStoreMeta (img : ImageDocument) (now : String) : Metadata :=
  [("id", .s img.id), ("file_path", .s img.file_path), ("file_name", .s img.file_name),
   ("image_type", .s img.image_type), ("caption", .s img.caption),
   ("created_at", .s now), ("source", .s "local")]

/-- The MCP/CLI-facing outcome record of the document service calls. -/
structure AddResult where
  success : Bool
  error : Option String
  message : String
deriving DecidableEq, Repr

/-- DocumentService.add-image-file: load the image, embed it (external call,
outcome passed in), then store it; a processing or embedding error is
re-raised to the caller. The pair returned is the images collection after
the call and the outcome. -/
def add_image_file (store : Collection) (embedRes : Except PyErr (List ℚ)) (maxMb : ℚ)
    (autoCaption : Bool) (genCaption : Except PyErr String) (imageId now : String)
    (path : String) (fi : FileInfo) (captionArg : Option String) (tags : List String) :
    Collection × Except PyErr AddResult :=
  match load_image maxMb autoCaption genCaption imageId path fi captionArg tags with
  | .error e => (store, .error e)
  | .ok img =>
    match embedRes with
    | .error e => (store, .error e)
    | .ok emb =>
      (store.upsert ⟨img.id, img.caption, imgStoreMeta img now, emb⟩,
       .ok ⟨true, none, "image " ++ img.file_name ++ " added"⟩)

/-- The error field of the result returned by add-file for a caught
exception: the class name for the known classes of its except clause, str(e)
for the rest (FileNotFoundError is not in that clause). -/
def addFileErrField (e : PyErr) : String :=
  match e with
  | .fileNotFound m => m
  | _ => e.className

/-- DocumentService.add-file: existence and directory checks produce error
results directly; then the extension dispatch routes to the image path or the
text path (the latter passed in as a whole, since claim C10 holds for every
behaviour of it); exceptions from the image path are caught and rendered as
an error result. -/
def add_file (store : Collection) (textAdd : Collection → Collection × AddResult)
    (embedRes : Except PyErr (List ℚ)) (maxMb : ℚ) (autoCaption : Bool)
    (genCaption : Except PyErr String) (imageId now : String) (path : String)
    (fi : FileInfo) (captionArg : Option String) (tags : List String) :
    Collection × AddResult :=
  if fi.present = false then
    (store, ⟨false, some "FileNotFoundError", "file or directory not found: " ++ path⟩)
  else if fi.isDir then
    (store, ⟨false, some "DirectoryNotSupported", "directory ingestion is not supported"⟩)
  else if is_image_file path then
    match add_image_file store embedRes maxMb autoCaption genCaption imageId now path fi
        captionArg tags with
    | (st, .ok r) => (st, r)
    | (st, .error e) => (st, ⟨false, some (addFileErrField e), e.msgOf⟩)
  else
    textAdd store

/-! ### Derived total forms of the search loops

The loop bodies of search and search-images validate every score at
SearchHit construction; the functions below are the same constructions
without the validation, and the lemmas in the theorem section show the loops
always succeed and agree with them, because converted distances always lie
in the unit interval. -/

/-- The text hit built for one query row at a 1-based rank. -/
def mkTextHit (rank : Nat) (row : QueryRow) : SearchResult :=
  ⟨chunkOfRow row, 1 / (1 + row.distance),
   metaGetS row.metadata "document_name" "Unknown",
   metaGetS row.metadata "source" "Unknown",
   rank, (chunkOfRow row).metadata, "text", none, none⟩

/-- The hit list produced by a successful VectorStore.search. -/
def textHits (col : Collection) (qe : List ℚ) (k : Nat) : List SearchResult :=
  ((col.query qe k).enumFrom 1).map (fun p => mkTextHit p.1 p.2)

/-- The image hit built for one query row at a 1-based rank. -/
def mkImgHit (rank : Nat) (row : QueryRow) : SearchResult :=
  ⟨mkChunk row.document row.id row.id 0 0 (row.document.length : Int) row.metadata,
   1 / (1 + row.distance),
   metaGetS row.metadata "file_name" "Unknown",
   metaGetS row.metadata "file_path" "Unknown",
   rank, (mkChunk row.document row.id row.id 0 0 (row.document.length : Int) row.metadata).metadata,
   "image", some (metaGetS row.metadata "file_path" ""), some row.document⟩

/-- The hit list produced by a successful VectorStore.search-images. -/
def imgHits (col : Collection) (qe : List ℚ) (k : Nat) : List SearchResult :=
  ((col.query qe k).enumFrom 1).map (fun p => mkImgHit p.1 p.2)

/-- The ranking projection of a hit compared across search calls: chunk id,
chunk content, score, rank and result type. -/
def hitKey (r : SearchResult) : String × String × ℚ × Nat × String :=
  (r.chunk.chunk_id, r.chunk.content, r.score, r.rank, r.result_type)

/-! ### Concrete instances used by witnesses and counterexamples -/

/-- A concrete config with the default multimodal weights. -/
def witConfig : Config := ⟨1/2, 1/2⟩

/-- Metadata of a concrete stored chunk. -/
def witTextMeta : Metadata :=
  [("document_id", .s "d1"), ("document_name", .s "a.txt"), ("source", .s "/tmp/a.txt"),
   ("doc_type", .s "txt"), ("size", .i 9)]

/-- A documents collection with one stored chunk. -/
def witTextCol : Collection := ⟨[⟨"d1_chunk_0000", "hello doc", witTextMeta, [1, 0]⟩]⟩

/-- Metadata of a concrete stored image. -/
def witImgMeta : Metadata :=
  [("id", .s "i1"), ("file_name", .s "cat.png"), ("file_path", .s "/tmp/cat.png")]

/-- An images collection with one stored image. -/
def witImgCol : Collection := ⟨[⟨"i1", "a small cat", witImgMeta, [0, 1]⟩]⟩

/-- An initialized store holding one chunk and one image. -/
def witStore : VectorStore :=
  ⟨witConfig, "documents", some [("documents", witTextCol), ("images", witImgCol)], some witTextCol⟩

/-- A query vector for the witness store. -/
def witQuery : List ℚ := [1, 0]

/-- A store whose two handles are released, as after close: on it both
single-modality searches raise. -/
def bothFailStore : VectorStore := ⟨witConfig, "documents", none, none⟩

/-- An initialized store whose two collections are empty. -/
def emptyStore : VectorStore :=
  ⟨witConfig, "documents", some [("documents", ⟨[]⟩), ("images", ⟨[]⟩)], some ⟨[]⟩⟩

/-- A concrete source document for the ingestion claims: content of 11
characters, the loader metadata keys. -/
def c6doc : Document :=
  ⟨"/tmp/sample.txt", "sample.txt", "hello world", "txt", "/tmp/sample.txt",
   "2026-01-01T00:00:00",
   [("file_size", .i 11), ("file_modified", .s "2026-01-01T00:00:00"), ("encoding", .s "utf-8")]⟩

/-- The chunks created from that document when the splitter returns the whole
content as a single fragment. -/
def c6chunks : List Chunk := create_chunks c6doc ["hello world"] "d1"

/-- The metadata of the first created chunk. -/
def c6meta : Metadata :=
  match c6chunks with
  | c :: _ => c.metadata
  | [] => []

/-- An initialized empty store into which the created chunks are ingested. -/
def c6baseStore : VectorStore :=
  ⟨witConfig, "documents", some [("documents", ⟨[]⟩), ("images", ⟨[]⟩)], some ⟨[]⟩⟩

/-- The store state after adding the created chunks. -/
def c6store : VectorStore := (c6baseStore.add_documents c6chunks [[0]]).1

/-- The rank-reassignment stage of the multimodal merge, 1-based by position. -/
def reassignRanks (l : List SearchResult) : List SearchResult :=
  (l.enumFrom 1).map setRank

/-- Decidable equality of outcomes, used to state concrete evaluations. -/
instance {ε α : Type} [DecidableEq ε] [DecidableEq α] : DecidableEq (Except ε α) := fun a b =>
  match a, b with
  | .ok x, .ok y => if h : x = y then isTrue (by rw [h]) else isFalse (by simp [h])
  | .error x, .error y => if h : x = y then isTrue (by rw [h]) else isFalse (by simp [h])
  | .ok _, .error _ => isFalse (by simp)
  | .error _, .ok _ => isFalse (by simp)

/-! ### Basic facts about distances, scores and query -/

theorem sqDist_nonneg (u v : List ℚ) : 0 ≤ sqDist u v := by
  unfold sqDist
  apply List.sum_nonneg
  intro x hx
  obtain ⟨p, _, rfl⟩ := List.mem_map.1 hx
  exact mul_self_nonneg _

theorem score_pos {d : ℚ} (hd : 0 ≤ d) : 0 < 1 / (1 + d) := by
  have h1 : (0 : ℚ) < 1 + d := by linarith
  positivity

theorem score_le_one {d : ℚ} (hd : 0 ≤ d) : 1 / (1 + d) ≤ 1 := by
  have h1 : (0 : ℚ) < 1 + d := by linarith
  rw [div_le_one h1]
  linarith

theorem score_antitone {d1 d2 : ℚ} (h1 : 0 ≤ d1) (h12 : d1 ≤ d2) :
    1 / (1 + d2) ≤ 1 / (1 + d1) := by
  have : (0 : ℚ) < 1 + d1 := by linarith
  apply one_div_le_one_div_of_le this
  linarith

theorem mem_query {col : Collection} {qe : List ℚ} {n : Nat} {row : QueryRow}
    (h : row ∈ col.query qe n) :
    ∃ e ∈ col.entries, row = ⟨e.id, e.document, e.metadata, sqDist qe e.embedding⟩ := by
  unfold Collection.query at h
  have h2 := List.mem_of_mem_take h
  rw [List.mem_insertionSort] at h2
  obtain ⟨e, he, hrow⟩ := List.mem_map.1 h2
  exact ⟨e, he, hrow.symm⟩

theorem query_dist_nonneg {col : Collection} {qe : List ℚ} {n : Nat} {row : QueryRow}
    (h : row ∈ col.query qe n) : 0 ≤ row.distance := by
  obtain ⟨e, _, rfl⟩ := mem_query h
  exact sqDist_nonneg _ _

theorem query_sorted (col : Collection) (qe : List ℚ) (n : Nat) :
    (col.query qe n).Pairwise distLe := by
  unfold Collection.query
  exact (List.sorted_insertionSort distLe _).sublist (List.take_sublist _ _)

theorem query_length_le (col : Collection) (qe : List ℚ) (n : Nat) :
    (col.query qe n).length ≤ n := by
  unfold Collection.query
  simp [List.length_take_le]

/-! ### The search loops always succeed and equal their total forms -/

theorem mapExcept_eq_ok {f : α → Except String β} {g : α → β} {l : List α}
    (h : ∀ a ∈ l, f a = .ok (g a)) : mapExcept f l = .ok (l.map g) := by
  induction l with
  | nil => rfl
  | cons a t ih =>
    have ha := h a (List.mem_cons_self a t)
    have ht := ih (fun x hx => h x (List.mem_cons_of_mem a hx))
    simp [mapExcept, ha, ht, Bind.bind, Except.bind, Pure.pure, Except.pure]

theorem rowToResult_eq_ok {row : QueryRow} (hd : 0 ≤ row.distance) (i : Nat) :
    rowToResult i row = .ok (mkTextHit i row) := by
  unfold rowToResult mkSearchResult mkTextHit
  rw [if_pos ⟨le_of_lt (score_pos hd), score_le_one hd⟩]

theorem imgRowToResult_eq_ok {row : QueryRow} (hd : 0 ≤ row.distance) (i : Nat) :
    imgRowToResult i row = .ok (mkImgHit i row) := by
  unfold imgRowToResult mkSearchResult mkImgHit
  rw [if_pos ⟨le_of_lt (score_pos hd), score_le_one hd⟩]

theorem search_eq_ok {s : VectorStore} {col : Collection} (hcol : s.collection = some col)
    (qe : List ℚ) (k : Nat) : s.search qe k = .ok (textHits col qe k) := by
  unfold VectorStore.search
  rw [hcol]
  apply mapExcept_eq_ok
  intro p hp
  exact rowToResult_eq_ok (query_dist_nonneg (List.snd_mem_of_mem_enumFrom hp)) p.1

theorem search_images_eq_ok {s : VectorStore} {cl : List (String × Collection)}
    (hcl : s.client = some cl) (qe : List ℚ) (k : Nat) :
    s.search_images qe k = .ok (imgHits (getOrCreate cl "images") qe k) := by
  unfold VectorStore.search_images
  rw [hcl]
  apply mapExcept_eq_ok
  intro p hp
  exact imgRowToResult_eq_ok (query_dist_nonneg (List.snd_mem_of_mem_enumFrom hp)) p.1

theorem search_ok_inv {s : VectorStore} {qe : List ℚ} {k : Nat} {L : List SearchResult}
    (h : s.search qe k = .ok L) :
    ∃ col, s.collection = some col ∧ L = textHits col qe k := by
  cases hcol : s.collection with
  | none => rw [VectorStore.search, hcol] at h; exact absurd h (by simp)
  | some col =>
    refine ⟨col, rfl, ?_⟩
    have := search_eq_ok hcol qe k
    rw [this] at h
    exact (Except.ok.inj h).symm

theorem search_images_ok_inv {s : VectorStore} {qe : List ℚ} {k : Nat} {I : List SearchResult}
    (h : s.search_images qe k = .ok I) :
    ∃ cl, s.client = some cl ∧ I = imgHits (getOrCreate cl "images") qe k := by
  cases hcl : s.client with
  | none => rw [VectorStore.search_images, hcl] at h; exact absurd h (by simp)
  | some cl =>
    refine ⟨cl, rfl, ?_⟩
    have := search_images_eq_ok hcl qe k
    rw [this] at h
    exact (Except.ok.inj h).symm

/-! ### Accessor facts used throughout -/

@[simp] theorem weightTag_score (w : ℚ) (t : String) (r : SearchResult) :
    (weightTag w t r).score = r.score * w := rfl

@[simp] theorem weightTag_chunk (w : ℚ) (t : String) (r : SearchResult) :
    (weightTag w t r).chunk = r.chunk := rfl

@[simp] theorem weightTag_result_type (w : ℚ) (t : String) (r : SearchResult) :
    (weightTag w t r).result_type = r.result_type := rfl

@[simp] theorem setRank_score (p : Nat × SearchResult) : (setRank p).score = p.2.score := rfl

@[simp] theorem setRank_chunk (p : Nat × SearchResult) : (setRank p).chunk = p.2.chunk := rfl

@[simp] theorem setRank_rank (p : Nat × SearchResult) : (setRank p).rank = p.1 := rfl

@[simp] theorem setRank_result_type (p : Nat × SearchResult) :
    (setRank p).result_type = p.2.result_type := rfl

@[simp] theorem mkTextHit_score (i : Nat) (row : QueryRow) :
    (mkTextHit i row).score = 1 / (1 + row.distance) := rfl

@[simp] theorem mkTextHit_rank (i : Nat) (row : QueryRow) : (mkTextHit i row).rank = i := rfl

@[simp] theorem mkTextHit_result_type (i : Nat) (row : QueryRow) :
    (mkTextHit i row).result_type = "text" := rfl

@[simp] theorem mkImgHit_score (i : Nat) (row : QueryRow) :
    (mkImgHit i row).score = 1 / (1 + row.distance) := rfl

@[simp] theorem mkImgHit_rank (i : Nat) (row : QueryRow) : (mkImgHit i row).rank = i := rfl

@[simp] theorem mkImgHit_result_type (i : Nat) (row : QueryRow) :
    (mkImgHit i row).result_type = "image" := rfl

/-! ### Facts about the total hit lists -/

theorem pairwise_trivial {α} {R : α → α → Prop} (h : ∀ a b, R a b) (l : List α) :
    l.Pairwise R := by
  induction l with
  | nil => exact List.Pairwise.nil
  | cons a t ih => exact List.Pairwise.cons (fun b _ => h a b) ih

theorem pairwise_enumFrom_snd {α} {S : α → α → Prop} {l : List α} (h : l.Pairwise S) (n : Nat) :
    (l.enumFrom n).Pairwise (fun p q => S p.2 q.2) := by
  induction l generalizing n with
  | nil => exact List.Pairwise.nil
  | cons a t ih =>
    rw [List.enumFrom_cons]
    have hh := List.pairwise_cons.1 h
    exact List.Pairwise.cons
      (fun q hq => hh.1 q.2 (List.snd_mem_of_mem_enumFrom hq)) (ih hh.2 (n + 1))

theorem textHits_mem {col : Collection} {qe : List ℚ} {k : Nat} {r : SearchResult}
    (h : r ∈ textHits col qe k) :
    (0 < r.score ∧ r.score ≤ 1) ∧ r.result_type = "text" ∧
      ∃ d, 0 ≤ d ∧ r.score = 1 / (1 + d) := by
  obtain ⟨p, hp, rfl⟩ := List.mem_map.1 h
  have hd := query_dist_nonneg (List.snd_mem_of_mem_enumFrom hp)
  exact ⟨⟨score_pos hd, score_le_one hd⟩, rfl, p.2.distance, hd, rfl⟩

theorem imgHits_mem {col : Collection} {qe : List ℚ} {k : Nat} {r : SearchResult}
    (h : r ∈ imgHits col qe k) :
    (0 < r.score ∧ r.score ≤ 1) ∧ r.result_type = "image" ∧
      ∃ d, 0 ≤ d ∧ r.score = 1 / (1 + d) := by
  obtain ⟨p, hp, rfl⟩ := List.mem_map.1 h
  have hd := query_dist_nonneg (List.snd_mem_of_mem_enumFrom hp)
  exact ⟨⟨score_pos hd, score_le_one hd⟩, rfl, p.2.distance, hd, rfl⟩

theorem textHits_sorted (col : Collection) (qe : List ℚ) (k : Nat) :
    (textHits col qe k).Pairwise scoreGe := by
  unfold textHits
  rw [List.pairwise_map]
  have hq : (col.query qe k).Pairwise
      (fun a b => 0 ≤ a.distance ∧ a.distance ≤ b.distance) :=
    (query_sorted col qe k).imp_of_mem
      (fun ha _ hr => ⟨query_dist_nonneg ha, hr⟩)
  refine (pairwise_enumFrom_snd hq 1).imp ?_
  intro p q hpq
  exact score_antitone hpq.1 hpq.2

theorem imgHits_sorted (col : Collection) (qe : List ℚ) (k : Nat) :
    (imgHits col qe k).Pairwise scoreGe := by
  unfold imgHits
  rw [List.pairwise_map]
  have hq : (col.query qe k).Pairwise
      (fun a b => 0 ≤ a.distance ∧ a.distance ≤ b.distance) :=
    (query_sorted col qe k).imp_of_mem
      (fun ha _ hr => ⟨query_dist_nonneg ha, hr⟩)
  refine (pairwise_enumFrom_snd hq 1).imp ?_
  intro p q hpq
  exact score_antitone hpq.1 hpq.2

theorem textHits_length_le (col : Collection) (qe : List ℚ) (k : Nat) :
    (textHits col qe k).length ≤ k := by
  unfold textHits
  simpa using query_length_le col qe k

theorem imgHits_length_le (col : Collection) (qe : List ℚ) (k : Nat) :
    (imgHits col qe k).length ≤ k := by
  unfold imgHits
  simpa using query_length_le col qe k

/-! ### Stability facts about the sort used by the merge -/

theorem orderedInsert_append_of_not {α} (r : α → α → Prop) [DecidableRel r] (a : α)
    {B : List α} (C : List α) (h : ∀ b ∈ B, ¬ r a b) :
    List.orderedInsert r a (B ++ C) = B ++ List.orderedInsert r a C := by
  induction B with
  | nil => rfl
  | cons b B' ih =>
    have hb := h b (List.mem_cons_self b B')
    simp only [List.cons_append, List.orderedInsert, if_neg hb]
    exact congrArg (b :: ·) (ih (fun x hx => h x (List.mem_cons_of_mem b hx)))

theorem orderedInsert_of_forall {α} (r : α → α → Prop) [DecidableRel r] {a : α} {l : List α}
    (h : ∀ x ∈ l, r a x) : List.orderedInsert r a l = a :: l := by
  cases l with
  | nil => rfl
  | cons b t => simp only [List.orderedInsert, if_pos (h b (List.mem_cons_self b t))]

/-- A stable sort of a separated concatenation: when every element of the
first block strictly fails the order against every element of the second,
the blocks swap and the inner orders are preserved. -/
theorem insertionSort_append_sep {α} (r : α → α → Prop) [DecidableRel r] {A B : List α}
    (hA : A.Pairwise r) (hB : B.Pairwise r) (hsep : ∀ a ∈ A, ∀ b ∈ B, ¬ r a b) :
    List.insertionSort r (A ++ B) = B ++ A := by
  induction A with
  | nil => simpa using List.Sorted.insertionSort_eq hB
  | cons a A' ih =>
    have hh := List.pairwise_cons.1 hA
    have step1 : List.insertionSort r ((a :: A') ++ B)
        = List.orderedInsert r a (List.insertionSort r (A' ++ B)) := rfl
    rw [step1, ih hh.2 (fun x hx => hsep x (List.mem_cons_of_mem a hx)),
      orderedInsert_append_of_not r a A' (fun b hb => hsep a (List.mem_cons_self a A') b hb),
      orderedInsert_of_forall r hh.1]

/-! ### The rank-reassignment stage -/

theorem textHits_rank (col : Collection) (qe : List ℚ) (k : Nat) (i : Nat)
    (h : i < (textHits col qe k).length) : ((textHits col qe k).get ⟨i, h⟩).rank = i + 1 := by
  unfold textHits at h ⊢
  simp only [List.get_eq_getElem, List.getElem_map, List.getElem_enumFrom, mkTextHit_rank]
  exact Nat.add_comm 1 i

theorem imgHits_rank (col : Collection) (qe : List ℚ) (k : Nat) (i : Nat)
    (h : i < (imgHits col qe k).length) : ((imgHits col qe k).get ⟨i, h⟩).rank = i + 1 := by
  unfold imgHits at h ⊢
  simp only [List.get_eq_getElem, List.getElem_map, List.getElem_enumFrom, mkImgHit_rank]
  exact Nat.add_comm 1 i

theorem reassignRanks_append (A B : List SearchResult) :
    reassignRanks (A ++ B)
      = (A.enumFrom 1).map setRank ++ (B.enumFrom (1 + A.length)).map setRank := by
  unfold reassignRanks
  rw [List.enumFrom_append, List.map_append]

/-- Reassigning 1-based ranks to a unit-weighted copy of a hit list whose
ranks were already positional changes nothing about the ranking projection. -/
theorem reassign_unit_weight_hitKey {L : List SearchResult} (tag : String)
    (hrank : ∀ i (h : i < L.length), (L.get ⟨i, h⟩).rank = i + 1) :
    (((L.map (weightTag 1 tag)).enumFrom 1).map setRank).map hitKey = L.map hitKey := by
  apply List.ext_getElem
  · simp
  · intro i h1 h2
    have hi : i < L.length := by simpa using h2
    have hr := hrank i hi
    simp only [List.get_eq_getElem] at hr
    simp [hitKey, hr, mul_one, Nat.add_comm 1 i]

/-! ### The three parts of the multimodal merge contract -/

/-- With text weight 1 and image weight 0, the merged list restricted to text
hits is the text hit list itself, with equal ranking projection. -/
theorem merge_w10_filter_text {L I : List SearchResult} {k : Nat}
    (hLs : L.Pairwise scoreGe) (hLpos : ∀ r ∈ L, 0 ≤ r.score) (hLlen : L.length ≤ k)
    (hLtext : ∀ r ∈ L, r.result_type = "text") (hItype : ∀ r ∈ I, r.result_type = "image")
    (hLrank : ∀ i (h : i < L.length), (L.get ⟨i, h⟩).rank = i + 1) :
    ((mergeMultimodal (.ok L) (.ok I) 1 0 k).filter
      (fun r => r.result_type == "text")).map hitKey = L.map hitKey := by
  have hsorted : (L.map (weightTag 1 "text") ++ I.map (weightTag 0 "image")).Pairwise scoreGe := by
    rw [List.pairwise_append]
    refine ⟨?_, ?_, ?_⟩
    · rw [List.pairwise_map]
      exact hLs.imp (fun h => by simpa [scoreGe, mul_one] using h)
    · rw [List.pairwise_map]
      exact pairwise_trivial (fun a b => by simp [scoreGe]) I
    · intro a ha b hb
      obtain ⟨x, hx, rfl⟩ := List.mem_map.1 ha
      obtain ⟨y, _, rfl⟩ := List.mem_map.1 hb
      simpa [scoreGe] using hLpos x hx
  have heq : mergeMultimodal (.ok L) (.ok I) 1 0 k
      = reassignRanks ((List.insertionSort scoreGe
          (L.map (weightTag 1 "text") ++ I.map (weightTag 0 "image"))).take k) := rfl
  rw [heq, List.Sorted.insertionSort_eq hsorted, List.take_append_eq_append_take,
    List.take_of_length_le (by simpa using hLlen), reassignRanks_append, List.filter_append]
  have hblockA : (((L.map (weightTag 1 "text")).enumFrom 1).map setRank).filter
      (fun r => r.result_type == "text")
      = ((L.map (weightTag 1 "text")).enumFrom 1).map setRank := by
    apply List.filter_eq_self.mpr
    intro r hr
    obtain ⟨q, hq, rfl⟩ := List.mem_map.1 hr
    obtain ⟨x, hx, hxe⟩ := List.mem_map.1 (List.snd_mem_of_mem_enumFrom hq)
    simp [← hxe, hLtext x hx]
  have hblockB : ((((I.map (weightTag 0 "image")).take
        (k - (L.map (weightTag 1 "text")).length)).enumFrom
        (1 + (L.map (weightTag 1 "text")).length)).map setRank).filter
      (fun r => r.result_type == "text") = [] := by
    apply List.filter_eq_nil_iff.mpr
    intro r hr
    obtain ⟨q, hq, rfl⟩ := List.mem_map.1 hr
    have hq2 := List.mem_of_mem_take (List.snd_mem_of_mem_enumFrom hq)
    obtain ⟨y, hy, hye⟩ := List.mem_map.1 hq2
    simp [← hye, hItype y hy]
  rw [hblockA, hblockB, List.append_nil]
  exact reassign_unit_weight_hitKey "text" hLrank

/-- With text weight 0 and image weight 1, the merged list restricted to
image hits is the image hit list itself, with equal ranking projection. -/
theorem merge_w01_filter_image {L I : List SearchResult} {k : Nat}
    (hIs : I.Pairwise scoreGe) (hIpos : ∀ r ∈ I, 0 < r.score) (hIlen : I.length ≤ k)
    (hLtext : ∀ r ∈ L, r.result_type = "text") (hItype : ∀ r ∈ I, r.result_type = "image")
    (hIrank : ∀ i (h : i < I.length), (I.get ⟨i, h⟩).rank = i + 1) :
    ((mergeMultimodal (.ok L) (.ok I) 0 1 k).filter
      (fun r => r.result_type == "image")).map hitKey = I.map hitKey := by
  have hA : (L.map (weightTag 0 "text")).Pairwise scoreGe := by
    rw [List.pairwise_map]
    exact pairwise_trivial (fun a b => by simp [scoreGe]) L
  have hB : (I.map (weightTag 1 "image")).Pairwise scoreGe := by
    rw [List.pairwise_map]
    exact hIs.imp (fun h => by simpa [scoreGe, mul_one] using h)
  have hsep : ∀ a ∈ L.map (weightTag 0 "text"), ∀ b ∈ I.map (weightTag 1 "image"),
      ¬ scoreGe a b := by
    intro a ha b hb
    obtain ⟨x, _, rfl⟩ := List.mem_map.1 ha
    obtain ⟨y, hy, rfl⟩ := List.mem_map.1 hb
    simp only [scoreGe, weightTag_score, mul_one, mul_zero, not_le]
    exact hIpos y hy
  have heq : mergeMultimodal (.ok L) (.ok I) 0 1 k
      = reassignRanks ((List.insertionSort scoreGe
          (L.map (weightTag 0 "text") ++ I.map (weightTag 1 "image"))).take k) := rfl
  rw [heq, insertionSort_append_sep scoreGe hA hB hsep, List.take_append_eq_append_take,
    List.take_of_length_le (by simpa using hIlen), reassignRanks_append, List.filter_append]
  have hblockA : (((I.map (weightTag 1 "image")).enumFrom 1).map setRank).filter
      (fun r => r.result_type == "image")
      = ((I.map (weightTag 1 "image")).enumFrom 1).map setRank := by
    apply List.filter_eq_self.mpr
    intro r hr
    obtain ⟨q, hq, rfl⟩ := List.mem_map.1 hr
    obtain ⟨y, hy, hye⟩ := List.mem_map.1 (List.snd_mem_of_mem_enumFrom hq)
    simp [← hye, hItype y hy]
  have hblockB : ((((L.map (weightTag 0 "text")).take
        (k - (I.map (weightTag 1 "image")).length)).enumFrom
        (1 + (I.map (weightTag 1 "image")).length)).map setRank).filter
      (fun r => r.result_type == "image") = [] := by
    apply List.filter_eq_nil_iff.mpr
    intro r hr
    obtain ⟨q, hq, rfl⟩ := List.mem_map.1 hr
    have hq2 := List.mem_of_mem_take (List.snd_mem_of_mem_enumFrom hq)
    obtain ⟨x, hx, hxe⟩ := List.mem_map.1 hq2
    simp [← hxe, hLtext x hx]
  rw [hblockA, hblockB, List.append_nil]
  exact reassign_unit_weight_hitKey "image" hIrank

/-- For arbitrary weights the merged list is sorted by adjusted score
descending, has the length of the first k of the union, carries per-modality
adjusted scores, and has consecutive 1-based ranks. -/
theorem merge_general {L I : List SearchResult} {k : Nat} (tw iw : ℚ)
    (hLtext : ∀ r ∈ L, r.result_type = "text") (hItype : ∀ r ∈ I, r.result_type = "image") :
    (mergeMultimodal (.ok L) (.ok I) tw iw k).Pairwise scoreGe ∧
    (mergeMultimodal (.ok L) (.ok I) tw iw k).length = min k (L.length + I.length) ∧
    (∀ m ∈ mergeMultimodal (.ok L) (.ok I) tw iw k,
      (m.result_type = "text" ∧ ∃ r ∈ L, m.score = tw * r.score ∧ m.chunk = r.chunk) ∨
      (m.result_type = "image" ∧ ∃ r ∈ I, m.score = iw * r.score ∧ m.chunk = r.chunk)) ∧
    (∀ i (h : i < (mergeMultimodal (.ok L) (.ok I) tw iw k).length),
      ((mergeMultimodal (.ok L) (.ok I) tw iw k).get ⟨i, h⟩).rank = i + 1) := by
  have heq : mergeMultimodal (.ok L) (.ok I) tw iw k
      = reassignRanks ((List.insertionSort scoreGe
          (L.map (weightTag tw "text") ++ I.map (weightTag iw "image"))).take k) := rfl
  refine ⟨?_, ?_, ?_, ?_⟩
  · rw [heq]
    unfold reassignRanks
    rw [List.pairwise_map]
    have hX : ((List.insertionSort scoreGe
        (L.map (weightTag tw "text") ++ I.map (weightTag iw "image"))).take k).Pairwise
        scoreGe :=
      (List.sorted_insertionSort scoreGe _).sublist (List.take_sublist _ _)
    exact (pairwise_enumFrom_snd hX 1).imp (fun h => by simpa [scoreGe] using h)
  · rw [heq]
    unfold reassignRanks
    simp [min_comm]
  · intro m hm
    rw [heq] at hm
    obtain ⟨q, hq, rfl⟩ := List.mem_map.1 hm
    have hq2 := List.mem_of_mem_take (List.snd_mem_of_mem_enumFrom hq)
    rw [List.mem_insertionSort, List.mem_append] at hq2
    rcases hq2 with hq2 | hq2
    · obtain ⟨x, hx, hxe⟩ := List.mem_map.1 hq2
      refine Or.inl ⟨?_, x, hx, ?_, ?_⟩
      · simp [← hxe, hLtext x hx]
      · simp [← hxe, mul_comm]
      · simp [← hxe]
    · obtain ⟨y, hy, hye⟩ := List.mem_map.1 hq2
      refine Or.inr ⟨?_, y, hy, ?_, ?_⟩
      · simp [← hye, hItype y hy]
      · simp [← hye, mul_comm]
      · simp [← hye]
  · intro i h
    show ((reassignRanks ((List.insertionSort scoreGe
        (L.map (weightTag tw "text") ++ I.map (weightTag iw "image"))).take k)).get
        ⟨i, by simpa [heq] using h⟩).rank = i + 1
    unfold reassignRanks
    simp only [List.get_eq_getElem, List.getElem_map, List.getElem_enumFrom, setRank_rank]
    exact Nat.add_comm 1 i

/-! ### Claim theorems -/

/-- C1: for every query vector and k, searchMultimodal with weights 1 and 0
restricted to text hits equals search in hits and order (equal ranking
projections), and with weights 0 and 1 restricted to image hits equals
searchImages; in general every merged hit carries the per-modality adjusted
score (text weight times score for text hits, image weight times score for
image hits), the merged list is sorted by adjusted score descending, the
first k of the union are returned, and ranks are reassigned 1-based. -/
theorem multimodal_weighting_spec (s : VectorStore) (qe : List ℚ) (k : Nat)
    (L I : List SearchResult)
    (hL : s.search qe k = .ok L) (hI : s.search_images qe k = .ok I) :
    (∀ M, s.search_multimodal qe k (some 1) (some 0) = .ok M →
      (M.filter (fun r => r.result_type == "text")).map hitKey = L.map hitKey) ∧
    (∀ M, s.search_multimodal qe k (some 0) (some 1) = .ok M →
      (M.filter (fun r => r.result_type == "image")).map hitKey = I.map hitKey) ∧
    (∀ tw iw M, s.search_multimodal qe k (some tw) (some iw) = .ok M →
      M.Pairwise scoreGe ∧ M.length = min k (L.length + I.length) ∧
      (∀ m ∈ M,
        (m.result_type = "text" ∧ ∃ r ∈ L, m.score = tw * r.score ∧ m.chunk = r.chunk) ∨
        (m.result_type = "image" ∧ ∃ r ∈ I, m.score = iw * r.score ∧ m.chunk = r.chunk)) ∧
      (∀ i (h : i < M.length), (M.get ⟨i, h⟩).rank = i + 1)) := by
  obtain ⟨col, hcol, hLe⟩ := search_ok_inv hL
  obtain ⟨cl, hcl, hIe⟩ := search_images_ok_inv hI
  subst hLe
  subst hIe
  have hmm : ∀ a b : ℚ, s.search_multimodal qe k (some a) (some b)
      = .ok (mergeMultimodal (.ok (textHits col qe k))
          (.ok (imgHits (getOrCreate cl "images") qe k)) a b k) := by
    intro a b
    show Except.ok (mergeMultimodal (s.search qe k) (s.search_images qe k) a b k) = _
    rw [hL, hI]
  have hLtext : ∀ r ∈ textHits col qe k, r.result_type = "text" :=
    fun r hr => (textHits_mem hr).2.1
  have hItype : ∀ r ∈ imgHits (getOrCreate cl "images") qe k, r.result_type = "image" :=
    fun r hr => (imgHits_mem hr).2.1
  refine ⟨?_, ?_, ?_⟩
  · intro M hM
    rw [hmm 1 0] at hM
    obtain rfl := Except.ok.inj hM
    exact merge_w10_filter_text (textHits_sorted col qe k)
      (fun r hr => le_of_lt (textHits_mem hr).1.1) (textHits_length_le col qe k)
      hLtext hItype (textHits_rank col qe k)
  · intro M hM
    rw [hmm 0 1] at hM
    obtain rfl := Except.ok.inj hM
    exact merge_w01_filter_image (imgHits_sorted _ qe k)
      (fun r hr => (imgHits_mem hr).1.1) (imgHits_length_le _ qe k)
      hLtext hItype (imgHits_rank _ qe k)
  · intro tw iw M hM
    rw [hmm tw iw] at hM
    obtain rfl := Except.ok.inj hM
    exact merge_general tw iw hLtext hItype

/-- Witness for C1: the concrete one-chunk one-image store, text weight 1,
image weight 0: the merged hits restricted to text hits project exactly onto
the single-modality text hits. -/
theorem multimodal_weighting_spec_witness :
    witStore.search_multimodal witQuery 2 (some 1) (some 0)
      = .ok (mergeMultimodal (.ok (textHits witTextCol witQuery 2))
          (.ok (imgHits witImgCol witQuery 2)) 1 0 2) ∧
    ((mergeMultimodal (.ok (textHits witTextCol witQuery 2))
        (.ok (imgHits witImgCol witQuery 2)) 1 0 2).filter
      (fun r => r.result_type == "text")).map hitKey
      = (textHits witTextCol witQuery 2).map hitKey := by
  have hgoc : getOrCreate [("documents", witTextCol), ("images", witImgCol)] "images"
      = witImgCol := rfl
  have hL : witStore.search witQuery 2 = .ok (textHits witTextCol witQuery 2) :=
    search_eq_ok rfl witQuery 2
  have hI : witStore.search_images witQuery 2 = .ok (imgHits witImgCol witQuery 2) := by
    have h := search_images_eq_ok
      (show witStore.client = some [("documents", witTextCol), ("images", witImgCol)] from rfl)
      witQuery 2
    rwa [hgoc] at h
  have hM : witStore.search_multimodal witQuery 2 (some 1) (some 0)
      = .ok (mergeMultimodal (.ok (textHits witTextCol witQuery 2))
          (.ok (imgHits witImgCol witQuery 2)) 1 0 2) := by
    show Except.ok (mergeMultimodal (witStore.search witQuery 2)
        (witStore.search_images witQuery 2) 1 0 2) = _
    rw [hL, hI]
  exact ⟨hM, (multimodal_weighting_spec witStore witQuery 2 _ _ hL hI).1 _ hM⟩

/-- C2 counterexample: on a store where both single-modality searches raise,
searchMultimodal does not propagate any error; it returns the empty list. -/
theorem multimodal_both_fail_returns_empty :
    bothFailStore.search witQuery 5 = .error "collection not initialized" ∧
    bothFailStore.search_images witQuery 5 = .error "client not initialized" ∧
    bothFailStore.search_multimodal witQuery 5 none none = .ok [] :=
  ⟨rfl, rfl, rfl⟩

/-- C2 as amended: a failed single-modality search is replaced by the empty
list and the merge continues with the other modality; when both searches
raise, searchMultimodal returns the empty list and no error; an empty
collection contributes an empty list and never an error. -/
theorem multimodal_degraded_spec :
    (∀ (e : String) (res : Except String (List SearchResult)) (tw iw : ℚ) (k : Nat),
      mergeMultimodal (.error e) res tw iw k = mergeMultimodal (.ok []) res tw iw k) ∧
    (∀ (e : String) (res : Except String (List SearchResult)) (tw iw : ℚ) (k : Nat),
      mergeMultimodal res (.error e) tw iw k = mergeMultimodal res (.ok []) tw iw k) ∧
    (∀ (e1 e2 : String) (tw iw : ℚ) (k : Nat),
      mergeMultimodal (.error e1) (.error e2) tw iw k = []) ∧
    (∀ (s : VectorStore) (qe : List ℚ) (k : Nat) (tw iw : Option ℚ) (eT eI : String),
      s.search qe k = .error eT → s.search_images qe k = .error eI →
        s.search_multimodal qe k tw iw = .ok []) ∧
    (∀ (s : VectorStore) (qe : List ℚ) (k : Nat),
      s.collection = some ⟨[]⟩ → s.search qe k = .ok []) ∧
    (∀ (s : VectorStore) (cl : List (String × Collection)) (qe : List ℚ) (k : Nat),
      s.client = some cl → getOrCreate cl "images" = ⟨[]⟩ →
        s.search_images qe k = .ok []) := by
  have h3 : ∀ (e1 e2 : String) (tw iw : ℚ) (k : Nat),
      mergeMultimodal (.error e1) (.error e2) tw iw k = [] := by
    intro e1 e2 tw iw k
    simp [mergeMultimodal, reassignRanks]
  refine ⟨fun _ _ _ _ _ => rfl, fun _ _ _ _ _ => rfl, h3, ?_, ?_, ?_⟩
  · intro s qe k tw iw eT eI hT hI
    show Except.ok (mergeMultimodal (s.search qe k) (s.search_images qe k)
        (tw.getD s.config.multimodal_search_text_weight)
        (iw.getD s.config.multimodal_search_image_weight) k) = .ok []
    rw [hT, hI, h3]
  · intro s qe k hcol
    unfold VectorStore.search
    rw [hcol]
    simp [Collection.query, mapExcept]
  · intro s cl qe k hcl hgoc
    unfold VectorStore.search_images
    rw [hcl]
    simp only [hgoc]
    simp [Collection.query, mapExcept]

/-- Witness for the amended C2: with both handles released, both searches
raise and searchMultimodal returns the empty list. -/
theorem multimodal_degraded_spec_witness :
    bothFailStore.search_multimodal witQuery 3 (some 1) (some 1) = .ok [] :=
  multimodal_degraded_spec.2.2.2.1 bothFailStore witQuery 3 (some 1) (some 1)
    "collection not initialized" "client not initialized" rfl rfl

/-- C7 counterexample: after close, searchMultimodal does not fail with a
store-closed error; it returns the empty list. -/
theorem multimodal_after_close_returns_ok :
    (witStore.close).search_multimodal witQuery 3 (some 1) (some 1) = .ok [] := rfl

/-- C7 as amended: after close, every modelled store operation except
searchMultimodal fails with a store-closed error and leaves the state
unchanged; searchMultimodal instead returns the empty list because it
swallows both single-modality failures; close itself is idempotent. -/
theorem store_ops_fail_after_close (s : VectorStore) (qe : List ℚ) (k : Nat)
    (cs : List Chunk) (es : List (List ℚ)) (did : Option String)
    (cids : Option (List String)) (wf : Option Metadata) (lim : Option Nat)
    (tw iw : Option ℚ) :
    (s.close).add_documents cs es = (s.close, .error "collection not initialized") ∧
    (s.close).search qe k = .error "collection not initialized" ∧
    (s.close).search_images qe k = .error "client not initialized" ∧
    (s.close).delete did cids wf = (s.close, .error "collection not initialized") ∧
    (s.close).list_documents lim = .error "collection not initialized" ∧
    (s.close).get_document_count = .error "collection not initialized" ∧
    (s.close).clear = (s.close, .error "collection not initialized") ∧
    (s.close).search_multimodal qe k tw iw = .ok [] ∧
    (s.close).close = s.close := by
  refine ⟨rfl, rfl, rfl, rfl, rfl, rfl, rfl, ?_, rfl⟩
  show Except.ok (mergeMultimodal ((s.close).search qe k) ((s.close).search_images qe k)
      (tw.getD s.config.multimodal_search_text_weight)
      (iw.getD s.config.multimodal_search_image_weight) k) = .ok []
  simp [VectorStore.close, VectorStore.search, VectorStore.search_images,
    mergeMultimodal, reassignRanks]

/-- C3: every hit returned by search, searchImages, or searchMultimodal with
weights between 0 and 1 has a score between 0 and 1; the bound is enforced
at SearchHit construction, and the backend distance d is converted by
1 / (1 + d). -/
theorem search_score_bounds (s : VectorStore) (qe : List ℚ) (k : Nat)
    (L I : List SearchResult) (wT wI : ℚ)
    (hL : s.search qe k = .ok L) (hI : s.search_images qe k = .ok I)
    (hwT : 0 ≤ wT ∧ wT ≤ 1) (hwI : 0 ≤ wI ∧ wI ≤ 1) :
    (∀ ch sc dn ds rk md rt ip cap,
      (∃ r, mkSearchResult ch sc dn ds rk md rt ip cap = .ok r ∧ r.score = sc) ↔
        (0 ≤ sc ∧ sc ≤ 1)) ∧
    (∀ r ∈ L, (0 ≤ r.score ∧ r.score ≤ 1) ∧ ∃ d, 0 ≤ d ∧ r.score = 1 / (1 + d)) ∧
    (∀ r ∈ I, (0 ≤ r.score ∧ r.score ≤ 1) ∧ ∃ d, 0 ≤ d ∧ r.score = 1 / (1 + d)) ∧
    (∀ M, s.search_multimodal qe k (some wT) (some wI) = .ok M →
      ∀ r ∈ M, 0 ≤ r.score ∧ r.score ≤ 1) := by
  obtain ⟨col, hcol, hLe⟩ := search_ok_inv hL
  obtain ⟨cl, hcl, hIe⟩ := search_images_ok_inv hI
  refine ⟨?_, ?_, ?_, ?_⟩
  · intro ch sc dn ds rk md rt ip cap
    constructor
    · rintro ⟨r, hr, hsc⟩
      unfold mkSearchResult at hr
      by_cases h : 0 ≤ sc ∧ sc ≤ 1
      · exact h
      · rw [if_neg h] at hr
        exact absurd hr (by simp)
    · intro h
      exact ⟨_, by unfold mkSearchResult; rw [if_pos h], rfl⟩
  · intro r hr
    subst hLe
    obtain ⟨⟨h1, h2⟩, _, d, hd, hs⟩ := textHits_mem hr
    exact ⟨⟨le_of_lt h1, h2⟩, d, hd, hs⟩
  · intro r hr
    subst hIe
    obtain ⟨⟨h1, h2⟩, _, d, hd, hs⟩ := imgHits_mem hr
    exact ⟨⟨le_of_lt h1, h2⟩, d, hd, hs⟩
  · intro M hM r hr
    subst hLe
    subst hIe
    have hmm : s.search_multimodal qe k (some wT) (some wI)
        = .ok (mergeMultimodal (.ok (textHits col qe k))
            (.ok (imgHits (getOrCreate cl "images") qe k)) wT wI k) := by
      show Except.ok (mergeMultimodal (s.search qe k) (s.search_images qe k) wT wI k) = _
      rw [hL, hI]
    rw [hmm] at hM
    obtain rfl := Except.ok.inj hM
    have hprov := (merge_general wT wI
      (fun x hx => (textHits_mem hx).2.1)
      (fun y hy => (imgHits_mem hy).2.1)).2.2.1 r hr
    rcases hprov with ⟨_, x, hx, hsc, _⟩ | ⟨_, y, hy, hsc, _⟩
    · have hb := (textHits_mem hx).1
      rw [hsc]
      exact ⟨mul_nonneg hwT.1 (le_of_lt hb.1), mul_le_one₀ hwT.2 (le_of_lt hb.1) hb.2⟩
    · have hb := (imgHits_mem hy).1
      rw [hsc]
      exact ⟨mul_nonneg hwI.1 (le_of_lt hb.1), mul_le_one₀ hwI.2 (le_of_lt hb.1) hb.2⟩

/-- Witness for C3: on the concrete one-chunk store, the single text hit
returned by search has its score inside the unit interval. -/
theorem search_score_bounds_witness :
    0 ≤ (mkTextHit 1 (QueryRow.mk "d1_chunk_0000" "hello doc" witTextMeta
        (sqDist witQuery [1, 0]))).score ∧
    (mkTextHit 1 (QueryRow.mk "d1_chunk_0000" "hello doc" witTextMeta
        (sqDist witQuery [1, 0]))).score ≤ 1 := by
  have hgoc : getOrCreate [("documents", witTextCol), ("images", witImgCol)] "images"
      = witImgCol := rfl
  have hL : witStore.search witQuery 2 = .ok (textHits witTextCol witQuery 2) :=
    search_eq_ok rfl witQuery 2
  have hI : witStore.search_images witQuery 2 = .ok (imgHits witImgCol witQuery 2) := by
    have h := search_images_eq_ok
      (show witStore.client = some [("documents", witTextCol), ("images", witImgCol)] from rfl)
      witQuery 2
    rwa [hgoc] at h
  have hLlist : textHits witTextCol witQuery 2
      = [mkTextHit 1 (QueryRow.mk "d1_chunk_0000" "hello doc" witTextMeta
          (sqDist witQuery [1, 0]))] := rfl
  have hmem : mkTextHit 1 (QueryRow.mk "d1_chunk_0000" "hello doc" witTextMeta
      (sqDist witQuery [1, 0])) ∈ textHits witTextCol witQuery 2 := by
    rw [hLlist]
    exact List.mem_singleton.mpr rfl
  exact ((search_score_bounds witStore witQuery 2 _ _ (1/2) (1/2) hL hI
    ⟨by norm_num, by norm_num⟩ ⟨by norm_num, by norm_num⟩).2.1 _ hmem).1

/-! ### Chat claims -/

theorem add_message_eq {h : ChatHistory} {role : String} (content : String)
    (hr : role ∈ validRoles) :
    h.add_message role content
      = .ok ⟨evict h.max_messages (h.messages ++ [⟨role, content⟩]), h.max_messages⟩ := by
  unfold ChatHistory.add_message mkChatMessage evict
  rw [if_pos hr]
  cases h.max_messages with
  | none => rfl
  | some cap =>
    by_cases hc : cap ≠ 0 ∧ (h.messages ++ [(⟨role, content⟩ : ChatMessage)]).length > cap
    · simp only [Bind.bind, Except.bind, if_pos hc]
      rfl
    · simp only [Bind.bind, Except.bind, if_neg hc]
      rfl

theorem evict_getLast (max : Option Nat) (msgs : List ChatMessage) (m : ChatMessage) :
    (evict max (msgs ++ [m])).getLast? = some m := by
  cases max with
  | none => exact List.getLast?_concat _
  | some cap =>
    show (if cap ≠ 0 ∧ (msgs ++ [m]).length > cap then
        (msgs ++ [m]).drop ((msgs ++ [m]).length - cap) else msgs ++ [m]).getLast? = some m
    by_cases hc : cap ≠ 0 ∧ (msgs ++ [m]).length > cap
    · rw [if_pos hc]
      have hlen : (msgs ++ [m]).length - cap ≤ msgs.length := by
        simp only [List.length_append, List.length_singleton]
        omega
      rw [List.drop_append_of_le_length hlen, List.getLast?_concat]
    · rw [if_neg hc]
      exact List.getLast?_concat _

/-- C4: in chat mode the user turn is appended before retrieval and
generation; when either fails the call raises, the chat log is exactly the
log with the user turn appended (so the user turn remains as the last entry
and no assistant turn was appended). -/
theorem chat_failure_keeps_user_turn (hist : ChatHistory) (message : String)
    (retrieval : Except String (List SearchResult)) (llm : Except String String)
    (hfail : retrieval.isOk = false ∨ llm.isOk = false) :
    (engineChat hist message retrieval llm).2.isOk = false ∧
    ∀ h1, hist.add_message "user" message = .ok h1 →
      (engineChat hist message retrieval llm).1 = h1 ∧
      h1.messages.getLast? = some ⟨"user", message⟩ := by
  have hadd : hist.add_message "user" message
      = .ok ⟨evict hist.max_messages (hist.messages ++ [⟨"user", message⟩]),
          hist.max_messages⟩ :=
    add_message_eq message (show "user" ∈ validRoles by decide)
  set h1 : ChatHistory :=
    ⟨evict hist.max_messages (hist.messages ++ [⟨"user", message⟩]), hist.max_messages⟩
    with hh1
  have hlast : h1.messages.getLast? = some ⟨"user", message⟩ :=
    evict_getLast hist.max_messages hist.messages ⟨"user", message⟩
  have hchat : ∀ P : ChatHistory × Except String ChatAnswer → Prop,
      (∀ res, res.2.isOk = false → res.1 = h1 → P res) →
      P (engineChat hist message retrieval llm) := by
    intro P hP
    unfold engineChat
    rw [hadd]
    cases retrieval with
    | error e => exact hP _ rfl rfl
    | ok results =>
      cases llm with
      | error e => exact hP _ rfl rfl
      | ok answer =>
        rcases hfail with hf | hf
        · exact Bool.noConfusion hf
        · exact Bool.noConfusion hf
  refine hchat (fun res => res.2.isOk = false ∧
    ∀ h1', hist.add_message "user" message = .ok h1' →
      res.1 = h1' ∧ h1'.messages.getLast? = some ⟨"user", message⟩) ?_
  intro res hok hres
  refine ⟨hok, ?_⟩
  intro h1' hadd'
  rw [hadd] at hadd'
  obtain rfl := Except.ok.inj hadd'
  exact ⟨hres, hlast⟩

/-- Witness for C4: a failing retrieval leaves exactly the user turn in the
log and the call returns an error. -/
theorem chat_failure_keeps_user_turn_witness :
    (engineChat ⟨[], some 10⟩ "hi" (.error "down") (.ok "ans")).2.isOk = false ∧
    (engineChat ⟨[], some 10⟩ "hi" (.error "down") (.ok "ans")).1
      = ⟨[⟨"user", "hi"⟩], some 10⟩ := by
  have h := chat_failure_keeps_user_turn ⟨[], some 10⟩ "hi" (.error "down") (.ok "ans")
    (Or.inl rfl)
  exact ⟨h.1, (h.2 ⟨[⟨"user", "hi"⟩], some 10⟩ rfl).1⟩

/-- C5: a capped chat log keeps exactly the most recent messages (the new
length is the old length plus one, clamped to the cap, and the kept list is
a suffix of the appended list); concretely, an engine with max history 4 has,
after three chat calls, exactly the four turns user2, assistant2, user3,
assistant3, and reports history length 4. -/
theorem chat_history_retention :
    (∀ (h : ChatHistory) (cap : Nat) (role content : String) (h2 : ChatHistory),
      h.max_messages = some cap → 0 < cap → h.add_message role content = .ok h2 →
        h2.messages.length = min (h.messages.length + 1) cap ∧
        h2.messages <:+ h.messages ++ [⟨role, content⟩]) ∧
    ((engineChat (engineChat (engineChat ⟨[], some 4⟩ "u1" (.ok []) (.ok "a1")).1
        "u2" (.ok []) (.ok "a2")).1 "u3" (.ok []) (.ok "a3")).1.messages
      = [⟨"user", "u2"⟩, ⟨"assistant", "a2"⟩, ⟨"user", "u3"⟩, ⟨"assistant", "a3"⟩]) ∧
    ((engineChat (engineChat (engineChat ⟨[], some 4⟩ "u1" (.ok []) (.ok "a1")).1
        "u2" (.ok []) (.ok "a2")).1 "u3" (.ok []) (.ok "a3")).2
      = .ok ⟨"a3", 0, 4⟩) := by
  refine ⟨?_, rfl, rfl⟩
  intro h cap role content h2 hmax hcap hadd
  by_cases hr : role ∈ validRoles
  · rw [add_message_eq content hr] at hadd
    obtain rfl := (Except.ok.inj hadd)
    rw [hmax]
    show (if cap ≠ 0 ∧ (h.messages ++ [(⟨role, content⟩ : ChatMessage)]).length > cap then
        (h.messages ++ [(⟨role, content⟩ : ChatMessage)]).drop
          ((h.messages ++ [(⟨role, content⟩ : ChatMessage)]).length - cap)
      else h.messages ++ [(⟨role, content⟩ : ChatMessage)]).length
        = min (h.messages.length + 1) cap ∧
      (if cap ≠ 0 ∧ (h.messages ++ [(⟨role, content⟩ : ChatMessage)]).length > cap then
        (h.messages ++ [(⟨role, content⟩ : ChatMessage)]).drop
          ((h.messages ++ [(⟨role, content⟩ : ChatMessage)]).length - cap)
      else h.messages ++ [(⟨role, content⟩ : ChatMessage)])
        <:+ h.messages ++ [(⟨role, content⟩ : ChatMessage)]
    by_cases hc : cap ≠ 0 ∧ (h.messages ++ [(⟨role, content⟩ : ChatMessage)]).length > cap
    · rw [if_pos hc]
      have hgt := hc.2
      simp only [List.length_append, List.length_singleton] at hgt
      constructor
      · simp only [List.length_drop, List.length_append, List.length_singleton]
        omega
      · exact List.drop_suffix _ _
    · have hle : ¬ (h.messages ++ [(⟨role, content⟩ : ChatMessage)]).length > cap := by
        intro hgt
        exact hc ⟨by omega, hgt⟩
      rw [if_neg hc]
      simp only [List.length_append, List.length_singleton] at hle ⊢
      exact ⟨by omega, List.suffix_refl _⟩
  · unfold ChatHistory.add_message mkChatMessage at hadd
    rw [if_neg hr] at hadd
    exact absurd hadd (by simp [Bind.bind, Except.bind])

/-- Witness for C5: a full log of four messages evicts its oldest message on
append, keeping length four as the minimum of five and the cap. -/
theorem chat_history_retention_witness :
    ([⟨"assistant", "m2"⟩, ⟨"user", "m3"⟩, ⟨"assistant", "m4"⟩,
        (⟨"user", "m5"⟩ : ChatMessage)].length
      = min ([⟨"user", "m1"⟩, ⟨"assistant", "m2"⟩, ⟨"user", "m3"⟩,
          (⟨"assistant", "m4"⟩ : ChatMessage)].length + 1) 4) ∧
    ([⟨"assistant", "m2"⟩, ⟨"user", "m3"⟩, ⟨"assistant", "m4"⟩,
        (⟨"user", "m5"⟩ : ChatMessage)]
      <:+ [⟨"user", "m1"⟩, ⟨"assistant", "m2"⟩, ⟨"user", "m3"⟩,
          ⟨"assistant", "m4"⟩] ++ [⟨"user", "m5"⟩]) :=
  chat_history_retention.1
    ⟨[⟨"user", "m1"⟩, ⟨"assistant", "m2"⟩, ⟨"user", "m3"⟩, ⟨"assistant", "m4"⟩], some 4⟩
    4 "user" "m5"
    ⟨[⟨"assistant", "m2"⟩, ⟨"user", "m3"⟩, ⟨"assistant", "m4"⟩, ⟨"user", "m5"⟩], some 4⟩
    rfl (by decide) rfl

/-- C6 (code bug): the chunks produced by ingestion carry document-name and
size (and the auto-injected chunk-specific keys), but the document source and
type are stored under the keys document-source and document-type, not under
source and doc-type as the reading side expects; consequently listDocuments
aggregates this document with source and doc-type reported as Unknown. -/
theorem create_chunks_metadata_key_mismatch :
    metaGet c6meta "document_name" = some (.s "sample.txt") ∧
    metaGet c6meta "size" = some (.i 11) ∧
    metaGet c6meta "chunk_id" = some (.s "d1_chunk_0000") ∧
    metaGet c6meta "chunk_index" = some (.i 0) ∧
    metaGet c6meta "start_char" = some (.i 0) ∧
    metaGet c6meta "end_char" = some (.i 11) ∧
    metaGet c6meta "document_source" = some (.s "/tmp/sample.txt") ∧
    metaGet c6meta "document_type" = some (.s "txt") ∧
    metaGet c6meta "source" = none ∧
    metaGet c6meta "doc_type" = none ∧
    c6store.list_documents none
      = .ok [⟨"d1", "sample.txt", "Unknown", "Unknown", 1, 11⟩] := by
  decide

/-! ### Upsert lemmas for the batch-add claim -/

theorem find?_map_replace (l : List CEntry) (e : CEntry)
    (h : l.any (fun x => x.id = e.id)) :
    (l.map (fun x => if x.id = e.id then e else x)).find? (fun x => x.id = e.id) = some e := by
  induction l with
  | nil => simp at h
  | cons x t ih =>
    by_cases hx : x.id = e.id
    · simp [List.find?, if_pos hx]
    · rw [List.map_cons, if_neg hx, List.find?_cons_of_neg _ (by simpa using hx)]
      apply ih
      simpa [hx] using h

theorem find?_map_replace_other (l : List CEntry) (e : CEntry) (id : String)
    (h : id ≠ e.id) :
    (l.map (fun x => if x.id = e.id then e else x)).find? (fun x => x.id = id)
      = l.find? (fun x => x.id = id) := by
  induction l with
  | nil => rfl
  | cons x t ih =>
    by_cases hx : x.id = e.id
    · rw [List.map_cons, if_pos hx,
        List.find?_cons_of_neg _
          (by simp only [decide_eq_true_eq]; exact fun hc => h hc.symm),
        List.find?_cons_of_neg _
          (by simp only [decide_eq_true_eq]; exact fun hc => h (hx ▸ hc).symm)]
      exact ih
    · rw [List.map_cons, if_neg hx]
      by_cases hp : x.id = id
      · rw [List.find?_cons_of_pos _ (by simpa using hp),
          List.find?_cons_of_pos _ (by simpa using hp)]
      · rw [List.find?_cons_of_neg _ (by simpa using hp),
          List.find?_cons_of_neg _ (by simpa using hp)]
        exact ih

theorem findEntry_upsert_self (col : Collection) (e : CEntry) :
    findEntry (col.upsert e) e.id = some e := by
  unfold Collection.upsert findEntry
  by_cases h : col.entries.any (fun x => x.id = e.id)
  · rw [if_pos h]
    exact find?_map_replace col.entries e h
  · rw [if_neg h, List.find?_append]
    have hnone : col.entries.find? (fun x => x.id = e.id) = none := by
      rw [List.find?_eq_none]
      intro x hx hpx
      exact h (List.any_eq_true.mpr ⟨x, hx, hpx⟩)
    rw [hnone]
    simp [List.find?]

theorem findEntry_upsert_other (col : Collection) (e : CEntry) (id : String)
    (h : id ≠ e.id) : findEntry (col.upsert e) id = findEntry col id := by
  unfold Collection.upsert findEntry
  by_cases ha : col.entries.any (fun x => x.id = e.id)
  · rw [if_pos ha]
    exact find?_map_replace_other col.entries e id h
  · rw [if_neg ha, List.find?_append]
    cases hf : col.entries.find? (fun x => x.id = id) with
    | some x => rfl
    | none =>
      have hne : (e.id = id) = False := eq_false (fun hc => h hc.symm)
      simp [List.find?, hne]

theorem findEntry_addBatch_of_not_mem (col : Collection) (ps : List CEntry) (id : String)
    (h : ∀ p ∈ ps, p.id ≠ id) : findEntry (col.addBatch ps) id = findEntry col id := by
  induction ps generalizing col with
  | nil => rfl
  | cons e t ih =>
    show findEntry ((col.upsert e).addBatch t) id = findEntry col id
    rw [ih (col.upsert e) (fun p hp => h p (List.mem_cons_of_mem e hp)),
      findEntry_upsert_other col e id (fun hc => h e (List.mem_cons_self e t) hc.symm)]

theorem findEntry_addBatch_get : ∀ (ps : List CEntry), (ps.map CEntry.id).Nodup →
    ∀ (col : Collection) (i : Nat) (h : i < ps.length),
      findEntry (col.addBatch ps) (ps.get ⟨i, h⟩).id = some (ps.get ⟨i, h⟩)
  | [], _, _, i, h => absurd h (by simp)
  | e :: t, hnd, col, 0, _ => by
    rw [List.map_cons, List.nodup_cons] at hnd
    show findEntry ((col.upsert e).addBatch t) e.id = some e
    rw [findEntry_addBatch_of_not_mem (col.upsert e) t e.id
      (fun p hp hc => hnd.1 (hc ▸ List.mem_map_of_mem CEntry.id hp)),
      findEntry_upsert_self]
  | e :: t, hnd, col, j+1, h => by
    rw [List.map_cons, List.nodup_cons] at hnd
    have hj : j < t.length := by simpa using h
    exact findEntry_addBatch_get t hnd.2 (col.upsert e) j hj

/-- C8: adding chunks with a mismatched embedding list fails and leaves the
store unchanged, with the collection count equal before and after; with
equal-length lists the call succeeds and inserts or overwrites entries keyed
by chunk id. -/
theorem add_documents_mismatch_and_upsert :
    (∀ (s : VectorStore) (cs : List Chunk) (es : List (List ℚ)),
      cs.length ≠ es.length →
        (s.add_documents cs es).1 = s ∧
        (s.add_documents cs es).2.isOk = false ∧
        ((s.add_documents cs es).1).get_document_count = s.get_document_count) ∧
    (∀ (s : VectorStore) (col : Collection) (cs : List Chunk) (es : List (List ℚ)),
      s.collection = some col → cs.length = es.length → cs ≠ [] →
        (s.add_documents cs es).2 = .ok () ∧
        ∀ nc, (s.add_documents cs es).1.collection = some nc →
          (cs.map Chunk.chunk_id).Nodup →
          ∀ i (h1 : i < cs.length) (h2 : i < es.length),
            findEntry nc (cs.get ⟨i, h1⟩).chunk_id
              = some (chunkToEntry (cs.get ⟨i, h1⟩) (es.get ⟨i, h2⟩))) := by
  constructor
  · intro s cs es hne
    obtain ⟨cfg, cn, cl, colOpt⟩ := s
    cases colOpt with
    | none => exact ⟨rfl, rfl, rfl⟩
    | some col =>
      have he : VectorStore.add_documents ⟨cfg, cn, cl, some col⟩ cs es
          = (⟨cfg, cn, cl, some col⟩, .error "chunk count and embedding count do not match") := by
        show (if cs.length ≠ es.length then _ else _) = _
        rw [if_pos hne]
      rw [he]
      exact ⟨rfl, rfl, rfl⟩
  · intro s col cs es hcol heq hne
    obtain ⟨cfg, cn, cl, colOpt⟩ := s
    simp only at hcol
    subst hcol
    have he : VectorStore.add_documents ⟨cfg, cn, cl, some col⟩ cs es
        = (⟨cfg, cn, cl,
            some (col.addBatch ((cs.zip es).map (fun p => chunkToEntry p.1 p.2)))⟩,
           .ok ()) := by
      show (if cs.length ≠ es.length then _
        else if cs.isEmpty then _ else _) = _
      rw [if_neg (by simpa using heq), if_neg (by simpa using hne)]
    rw [he]
    refine ⟨rfl, ?_⟩
    intro nc hnc hnd i h1 h2
    obtain rfl := Option.some.inj hnc
    have hlen : ((cs.zip es).map (fun p => chunkToEntry p.1 p.2)).length = cs.length := by
      simp [List.length_zip, heq]
    have hids : ((cs.zip es).map (fun p => chunkToEntry p.1 p.2)).map CEntry.id
        = cs.map Chunk.chunk_id := by
      rw [List.map_map]
      have : ((cs.zip es).map Prod.fst).map Chunk.chunk_id = cs.map Chunk.chunk_id := by
        rw [List.map_fst_zip cs es (le_of_eq heq)]
      rw [← this, List.map_map]
      rfl
    have hi : i < ((cs.zip es).map (fun p => chunkToEntry p.1 p.2)).length := by
      rw [hlen]; exact h1
    have hget : ((cs.zip es).map (fun p => chunkToEntry p.1 p.2)).get ⟨i, hi⟩
        = chunkToEntry (cs.get ⟨i, h1⟩) (es.get ⟨i, h2⟩) := by
      simp [List.getElem_zip]
    have := findEntry_addBatch_get ((cs.zip es).map (fun p => chunkToEntry p.1 p.2))
      (by rw [hids]; exact hnd) col i hi
    rw [hget] at this
    exact this

/-- Witness for C8: a two-chunk one-vector batch fails with the state and
count unchanged. -/
theorem add_documents_mismatch_and_upsert_witness :
    (emptyStore.add_documents
        [mkChunk "a" "c1" "d" 0 0 1 [], mkChunk "b" "c2" "d" 1 1 2 []] [[1]]).1
      = emptyStore ∧
    (emptyStore.add_documents
        [mkChunk "a" "c1" "d" 0 0 1 [], mkChunk "b" "c2" "d" 1 1 2 []] [[1]]).2.isOk = false ∧
    ((emptyStore.add_documents
        [mkChunk "a" "c1" "d" 0 0 1 [], mkChunk "b" "c2" "d" 1 1 2 []] [[1]]).1).get_document_count
      = emptyStore.get_document_count :=
  add_documents_mismatch_and_upsert.1 emptyStore
    [mkChunk "a" "c1" "d" 0 0 1 [], mkChunk "b" "c2" "d" 1 1 2 []] [[1]] (by decide)

/-- C9 (code bug): the configuration loader never reads the key
VECTOR_DB_TYPE and sets no vector-db-type attribute, so for every
environment the factory fails with an attribute error instead of selecting
the chroma backend by default. -/
theorem vector_db_type_not_recognized :
    ("VECTOR_DB_TYPE" ∉ configEnvKeys) ∧
    (∀ env, getAttr (configAttrs env) "vector_db_type" = none) ∧
    (∀ env, create_vector_store (configAttrs env)
      = .error "AttributeError: Config object has no attribute vector_db_type") := by
  have h2 : ∀ env, getAttr (configAttrs env) "vector_db_type" = none := by
    intro env
    unfold getAttr
    rw [Option.map_eq_none', List.find?_eq_none]
    intro x hx
    simp only [configAttrs, List.mem_cons, List.not_mem_nil, or_false] at hx
    rcases hx with rfl | rfl | rfl | rfl | rfl | rfl | rfl | rfl
      | rfl | rfl | rfl | rfl | rfl | rfl | rfl | rfl
    all_goals simp
  refine ⟨by decide, h2, ?_⟩
  intro env
  unfold create_vector_store
  rw [h2 env]

/-- C10: a path with a tiff or tif extension is dispatched to the image
ingestion path by the extension set of the dispatcher, but the image
processor rejects it because its supported-extension set excludes tiff, so
addFile on an existing such file returns a failed result carrying the
UnsupportedImageTypeError class name and leaves the store unchanged. -/
theorem add_file_tiff_rejected (store : Collection)
    (textAdd : Collection → Collection × AddResult) (embedRes : Except PyErr (List ℚ))
    (maxMb : ℚ) (autoCaption : Bool) (genCaption : Except PyErr String)
    (imageId now path : String) (fi : FileInfo) (captionArg : Option String)
    (tags : List String)
    (hsuf : strToLower (pathSuffix path) = ".tiff" ∨ strToLower (pathSuffix path) = ".tif")
    (hex : fi.present = true) (hdir : fi.isDir = false) :
    is_image_file path = true ∧
    (add_file store textAdd embedRes maxMb autoCaption genCaption imageId now path fi
        captionArg tags).1 = store ∧
    (add_file store textAdd embedRes maxMb autoCaption genCaption imageId now path fi
        captionArg tags).2.success = false ∧
    (add_file store textAdd embedRes maxMb autoCaption genCaption imageId now path fi
        captionArg tags).2.error = some "UnsupportedImageTypeError" := by
  obtain ⟨pres, isd, size⟩ := fi
  simp only at hex hdir
  subst hex
  subst hdir
  have himg : is_image_file path = true := by
    unfold is_image_file
    rcases hsuf with h | h <;> rw [h] <;> decide
  have hunsup : imageSupportedExts.contains (strToLower (pathSuffix path)) = false := by
    rcases hsuf with h | h <;> rw [h] <;> decide
  have hval : validate_image maxMb path ⟨true, false, size⟩
      = .error (.unsupportedImageType ("Unsupported image format: " ++ pathSuffix path)) := by
    unfold validate_image
    rw [hunsup]
    rfl
  have hload : load_image maxMb autoCaption genCaption imageId path ⟨true, false, size⟩
      captionArg tags
      = .error (.unsupportedImageType ("Unsupported image format: " ++ pathSuffix path)) := by
    unfold load_image
    rw [hval]
    rfl
  have haif : add_image_file store embedRes maxMb autoCaption genCaption imageId now path
      ⟨true, false, size⟩ captionArg tags
      = (store, .error (.unsupportedImageType
          ("Unsupported image format: " ++ pathSuffix path))) := by
    unfold add_image_file
    rw [hload]
  have hfile : add_file store textAdd embedRes maxMb autoCaption genCaption imageId now path
      ⟨true, false, size⟩ captionArg tags
      = (store, ⟨false, some "UnsupportedImageTypeError",
          "Unsupported image format: " ++ pathSuffix path⟩) := by
    unfold add_file
    rw [himg, haif]
    rfl
  exact ⟨himg, by rw [hfile], by rw [hfile], by rw [hfile]⟩

/-- Witness for C10: adding an existing regular file photo.tiff fails with
the UnsupportedImageTypeError class name and the store untouched. -/
theorem add_file_tiff_rejected_witness :
    is_image_file "photo.tiff" = true ∧
    (add_file ⟨[]⟩ (fun c => (c, ⟨true, none, ""⟩)) (.ok []) 10 true (.ok "caption")
        "img1" "t0" "photo.tiff" ⟨true, false, 1⟩ none []).1 = (⟨[]⟩ : Collection) ∧
    (add_file ⟨[]⟩ (fun c => (c, ⟨true, none, ""⟩)) (.ok []) 10 true (.ok "caption")
        "img1" "t0" "photo.tiff" ⟨true, false, 1⟩ none []).2.success = false ∧
    (add_file ⟨[]⟩ (fun c => (c, ⟨true, none, ""⟩)) (.ok []) 10 true (.ok "caption")
        "img1" "t0" "photo.tiff" ⟨true, false, 1⟩ none []).2.error
      = some "UnsupportedImageTypeError" :=
  add_file_tiff_rejected ⟨[]⟩ (fun c => (c, ⟨true, none, ""⟩)) (.ok []) 10 true (.ok "caption")
    "img1" "t0" "photo.tiff" ⟨true, false, 1⟩ none [] (Or.inl (by decide)) rfl rfl

/-- Witness for C7: on the concrete closed store, search raises the
store-closed error. -/
theorem store_ops_fail_after_close_witness :
    (witStore.close).search witQuery 1 = .error "collection not initialized" :=
  (store_ops_fail_after_close witStore witQuery 1 [] [] none none none none
    (some 1) (some 1)).2.1

end RagSample
